import Mathlib

set_option autoImplicit false

/-!
Verification of the VAE training controller of the `molecules` repository
(`molecules/ml/unsupervised/vae/vae.py`): the epoch/batch loop of
`VAE.train` / `VAE._train` / `VAE._validate`, the checkpoint-resume logic of
`VAE._load_checkpoint`, the callback dispatch protocol, the device resolver
`VAE._configure_device`, and the loss functions `vae_logit_loss`.

The embedding is a shallow one: tensors become lists of rationals, the
mutable training state (model parameters, optimizer state, gradient-scaler
state, the shared `logs` dict) becomes an explicit `TrainState` record that
is threaded through the loop, and each lifecycle point additionally emits a
ghost `Event` so that the order of callback dispatches and `logs` writes can
be observed.  Python `KeyError` / `NameError` conditions become an explicit
error result carrying the state and trace at the point of failure.

External collaborators that the controller drives but that are not part of
the repository (the torch autograd engine, the optimizer, and the
`torch.cuda.amp.GradScaler`) are abstracted: autograd/optimizer as opaque
function parameters of the controller record, and the grad scaler as an
explicit state machine modelled from the spec (see `GradScaler`).
-/

/-- Model parameters (the concrete weight values of encoder+decoder). -/
abbrev Params := List ℚ

/-- Optimizer state (e.g. running moments); abstract list of rationals. -/
abbrev OptSt := List ℚ

/-- A serialized model state dict, as stored in a checkpoint. -/
abbrev StateDict := List ℚ

/-- A serialized optimizer state dict, as stored in a checkpoint. -/
abbrev OptSDict := List ℚ

/-- One batch yielded by a data loader: the 4-tuple
`(data, rmsd, fnc, index)` destructured at the top of the batch loops. -/
structure Batch where
  data : List ℚ
  rmsd : List ℚ
  fnc : List ℚ
  index : List Nat
deriving DecidableEq, Repr

/-- Result of `self.model(data)` in `VAEModel.forward`:
`(logit_recon_batch, codes, mu, logvar)`. -/
structure ForwardOut where
  logits : List ℚ
  codes : List ℚ
  mu : List ℚ
  logvar : List ℚ
deriving DecidableEq, Repr

/-- Mean of a list of rationals (`torch.mean` on the flattened tensor). -/
def qmean (xs : List ℚ) : ℚ := xs.sum / (xs.length : ℚ)

/-- Numerically stabilized binary cross-entropy on pre-activation logits,
elementwise `max(l,0) - l*z + log(1+exp(-|l|))` then mean; this is
`F.binary_cross_entropy_with_logits(logit_recon_x, x, reduction="mean")`
with the (transcendental) map `t ↦ log(1+exp(t))` kept abstract as `sp`. -/
def bce_with_logits (sp : ℚ → ℚ) (logits x : List ℚ) : ℚ :=
  qmean (List.zipWith (fun l z => max l 0 - l * z + sp (-(abs l))) logits x)

/-- Closed-form Gaussian KL divergence term of `vae_logit_loss`:
`-0.5 * torch.mean(1 + logvar - mu.pow(2) - logvar.exp())`, with the
exponential kept abstract as `ex`. -/
def kld_term (ex : ℚ → ℚ) (mu logvar : List ℚ) : ℚ :=
  -(1 / 2) * qmean (List.zipWith (fun m lv => 1 + lv - m ^ 2 - ex lv) mu logvar)

/-- `vae_logit_loss(logit_recon_x, x, mu, logvar)`: returns the pair
`(BCE, KLD)` where BCE works directly on logits and KLD is the closed-form
Gaussian divergence. -/
def vae_logit_loss (ex sp : ℚ → ℚ) (logit_recon_x x mu logvar : List ℚ) :
    ℚ × ℚ :=
  (bce_with_logits sp logit_recon_x x, kld_term ex mu logvar)

/-- A torch device: cpu, or cuda with an optional explicit index
(`torch.device("cuda")` carries no index, `torch.device("cuda:k")` does). -/
inductive TDevice where
  | cpu
  | cuda (idx : Option Nat)
deriving DecidableEq, Repr

/-- The `gpu` argument of `VAE._configure_device`: `None`, an int, or a
2-tuple whose components may each be `None`. -/
inductive GpuArg where
  | noneArg
  | intArg (k : Nat)
  | pairArg (a b : Option Nat)
deriving DecidableEq, Repr

/-- `VAE._configure_device(gpu)` with explicit CUDA availability:
`None` (or a pair containing `None`) resolves both targets to cuda when
available else cpu; otherwise an explicit request with no CUDA raises
`ValueError`; an int resolves both targets to that device; a full pair
resolves the two targets independently. -/
def configure_device (cuda_available : Bool) : GpuArg →
    Except String (TDevice × TDevice)
  | GpuArg.noneArg =>
      let d := if cuda_available then TDevice.cuda none else TDevice.cpu
      Except.ok (d, d)
  | GpuArg.pairArg none b =>
      let _ := b
      let d := if cuda_available then TDevice.cuda none else TDevice.cpu
      Except.ok (d, d)
  | GpuArg.pairArg (some a) none =>
      let _ := a
      let d := if cuda_available then TDevice.cuda none else TDevice.cpu
      Except.ok (d, d)
  | GpuArg.intArg k =>
      if cuda_available then
        Except.ok (TDevice.cuda (some k), TDevice.cuda (some k))
      else
        Except.error "Specified GPU training but CUDA is not available."
  | GpuArg.pairArg (some a) (some b) =>
      if cuda_available then
        Except.ok (TDevice.cuda (some a), TDevice.cuda (some b))
      else
        Except.error "Specified GPU training but CUDA is not available."

/-- Generic success test for an `Except` result. -/
def exIsOk {ε α : Type _} : Except ε α → Bool
  | Except.ok _ => true
  | Except.error _ => false

/-- Modelled from the spec: configuration constants of
`torch.cuda.amp.GradScaler` (library code, not part of this repository).
Spec §4.3: "maintain a scale factor; ... if found, skip the optimizer step
for that batch and reduce the scale factor; otherwise take the optimizer
step and periodically grow the scale factor".  Defaults follow the torch
documentation. -/
structure ScalerCfg where
  init_scale : ℚ := 65536
  growth_factor : ℚ := 2
  backoff_factor : ℚ := 1 / 2
  growth_interval : Nat := 2000
deriving DecidableEq, Repr

/-- Modelled from the spec: mutable state of `torch.cuda.amp.GradScaler`
(library code, not part of this repository): the enable flag of
`amp.GradScaler(enabled=self.enable_amp)`, the current loss-scale factor,
and the count of consecutive successful steps since the last growth. -/
structure GradScaler where
  enabled : Bool
  scale : ℚ
  growth_tracker : Nat
deriving DecidableEq, Repr

/-- Modelled from the spec: `gscaler.scale(loss)` multiplies the loss by the
scale factor when scaling is enabled, and is the identity otherwise. -/
def GradScaler.scaleLoss (sc : GradScaler) (loss : ℚ) : ℚ :=
  if sc.enabled then sc.scale * loss else loss

/-- Modelled from the spec: the combined effect of `gscaler.step(optimizer)`
and `gscaler.update()` on the scaler state, given whether the (unscaled)
gradients of the batch are all finite.  Returns whether the optimizer step
is taken, and the new scaler state: disabled ⇒ plain step; enabled and
finite ⇒ step, growing the scale every `growth_interval` successes; enabled
and non-finite ⇒ the step is skipped and the scale is multiplied by
`backoff_factor`. -/
def GradScaler.stepAndUpdate (cfg : ScalerCfg) (sc : GradScaler)
    (gradsFinite : Bool) : Bool × GradScaler :=
  if sc.enabled then
    if gradsFinite then
      let t := sc.growth_tracker + 1
      if t = cfg.growth_interval then
        (true, { sc with scale := sc.scale * cfg.growth_factor,
                         growth_tracker := 0 })
      else
        (true, { sc with growth_tracker := t })
    else
      (false, { sc with scale := sc.scale * cfg.backoff_factor,
                        growth_tracker := 0 })
  else
    (true, sc)

/-- A value stored in the shared `logs` dict: a numeric metric, an integer,
or the model / optimizer object handles installed by `VAE.train`. -/
inductive LogVal where
  | num (q : ℚ)
  | natv (n : Nat)
  | model (p : Params)
  | optim (o : OptSt)
deriving DecidableEq, Repr

/-- The shared `logs` mapping: a Python dict as an association list. -/
abbrev Logs := List (String × LogVal)

/-- Python `logs[k] = v`: overwrite the binding in place when the key is
present, otherwise append a new binding. -/
def Logs.insert (l : Logs) (k : String) (v : LogVal) : Logs :=
  if l.any (fun p => p.1 = k) then
    l.map (fun p => if p.1 = k then (k, v) else p)
  else
    l ++ [(k, v)]

/-- Python `logs.get(k)`: the current binding of `k`, if any. -/
def Logs.get (l : Logs) (k : String) : Option LogVal :=
  (l.find? (fun p => p.1 = k)).map (fun p => p.2)

/-- A callback object: one function per lifecycle hook, each transforming
the shared `logs` mapping (the only controller state the hooks receive).
Hook names and argument lists follow `molecules.utils.callback.Callback` as
invoked by `VAE.train` / `_train` / `_validate`; `on_validation_batch_end`
additionally receives the detached `rmsd`, `fnc` and `mu` of the batch. -/
structure Callback where
  on_train_begin : Logs → Logs
  on_epoch_begin : Nat → Logs → Logs
  on_batch_begin : Nat → Nat → Logs → Logs
  on_batch_end : Nat → Nat → Logs → Logs
  on_epoch_end : Nat → Logs → Logs
  on_validation_begin : Nat → Logs → Logs
  on_validation_batch_end : Nat → Nat → List ℚ → List ℚ → List ℚ → Logs → Logs
  on_validation_end : Nat → Logs → Logs
  on_train_end : Logs → Logs

/-- The dispatch pattern `for callback in callbacks: callback.hook(...)`:
each callback in list order transforms the single shared `logs`. -/
def fireAll (f : Callback → Logs → Logs) (cbs : List Callback) (logs : Logs) :
    Logs :=
  cbs.foldl (fun l cb => f cb l) logs

/-- Ghost trace event: a callback-dispatch point reached by the controller,
or a write of a metric into `logs` performed by the controller. -/
inductive Event where
  | onTrainBegin
  | onEpochBegin (epoch : Nat)
  | onBatchBegin (batchIdx epoch : Nat)
  | onBatchEnd (batchIdx epoch : Nat)
  | onEpochEnd (epoch : Nat)
  | onValidationBegin (epoch : Nat)
  | onValidationBatchEnd (epoch batchIdx : Nat)
  | onValidationEnd (epoch : Nat)
  | onTrainEnd
  | logWrite (key : String) (v : ℚ)
deriving DecidableEq, Repr

/-- Ghost trace: the ordered list of events of one run. -/
abbrev Trace := List Event

/-- Uncaught Python exceptions that the training loop can raise: a dict
`KeyError` on a missing checkpoint field, or the `NameError` raised when
`batch_idx` is read after a loop over an empty loader never bound it. -/
inductive RunError where
  | keyError (key : String)
  | nameError (varName : String)
deriving DecidableEq, Repr

/-- Mutable state of one training run: model parameters, optimizer state,
grad-scaler state, and the shared `logs` dict. -/
structure TrainState where
  params : Params
  opt : OptSt
  scaler : GradScaler
  logs : Logs
deriving Repr

/-- Result of a run fragment: the final state plus the trace delta it
emitted, or the error raised together with the state and trace delta at the
point of failure. -/
abbrev RunRes := Except (RunError × TrainState × Trace) (TrainState × Trace)

/-- The checkpoint record `torch.load` yields in `_load_checkpoint`: a dict
whose required fields may each be absent (absence raises `KeyError`). -/
structure Checkpoint where
  encoder_state_dict : Option StateDict
  decoder_state_dict : Option StateDict
  optimizer_state_dict : Option OptSDict
  epoch : Option Nat
deriving DecidableEq, Repr

/-- The torch collaborators of the controller, abstracted as functions:
the model forward pass, the finiteness of the gradients produced by
`backward` on a given (scaled) loss, the optimizer step, and the in-place
`load_state_dict` operations on encoder and decoder. -/
structure TorchModel where
  forward : Params → List ℚ → ForwardOut
  gradsFinite : Params → ℚ → Bool
  optStep : Params → OptSt → Params × OptSt
  loadEncoderState : Params → StateDict → Params
  loadDecoderState : Params → StateDict → Params

/-- The `VAE` controller object as configured by `VAE.__init__`: the torch
model/optimizer collaborators, `self.loss_fnc`, `self.lambda_rec`,
`self.enable_amp`, the grad-scaler configuration, the model parameters and
optimizer state at the time `train` is invoked, the optimizer's in-place
`load_state_dict`, and the ambient distributed-runtime facts. -/
structure VAEController where
  M : TorchModel
  loss_fnc : List ℚ → List ℚ → List ℚ → List ℚ → ℚ × ℚ
  lambda_rec : ℚ
  enable_amp : Bool
  scfg : ScalerCfg := {}
  params0 : Params
  opt0 : OptSt
  optLoadState : OptSt → OptSDict → OptSt
  dist_initialized : Bool := false
  comm_size : Nat := 1

/-- One iteration of the batch loop of `VAE._train`: fire `on_batch_begin`;
forward; compute `loss = lambda_rec * loss_rec + loss_kld`; scale, backward,
`gscaler.step(optimizer)`, `gscaler.update()`; accumulate `train_loss`;
when callbacks are attached write `train_loss`, `train_loss_rec`,
`train_loss_kld` and `global_step = (epoch-1)*num_batches + batch_idx` into
`logs`; fire `on_batch_end`.  Returns the new state, the new running loss
sum, and the trace delta. -/
def VAEController.trainBatchStep (V : VAEController) (cbs : List Callback)
    (epoch numBatches batchIdx : Nat) (b : Batch) (st : TrainState)
    (runningLoss : ℚ) : TrainState × ℚ × Trace :=
  let logs1 := fireAll (fun cb => cb.on_batch_begin batchIdx epoch) cbs st.logs
  let fo := V.M.forward st.params b.data
  let pr := V.loss_fnc fo.logits b.data fo.mu fo.logvar
  let loss := V.lambda_rec * pr.1 + pr.2
  let scaled := st.scaler.scaleLoss loss
  let finite := V.M.gradsFinite st.params scaled
  let su := GradScaler.stepAndUpdate V.scfg st.scaler finite
  let po := if su.1 then V.M.optStep st.params st.opt else (st.params, st.opt)
  let gs : ℚ := (((epoch - 1) * numBatches + batchIdx : Nat) : ℚ)
  let logs2 :=
    if cbs.isEmpty then logs1
    else ((((logs1.insert "train_loss" (LogVal.num loss)).insert
        "train_loss_rec" (LogVal.num pr.1)).insert
        "train_loss_kld" (LogVal.num pr.2)).insert
        "global_step" (LogVal.num gs))
  let tr2 : Trace :=
    if cbs.isEmpty then [Event.onBatchBegin batchIdx epoch]
    else [Event.onBatchBegin batchIdx epoch,
          Event.logWrite "train_loss" loss,
          Event.logWrite "train_loss_rec" pr.1,
          Event.logWrite "train_loss_kld" pr.2,
          Event.logWrite "global_step" gs]
  let logs3 := fireAll (fun cb => cb.on_batch_end batchIdx epoch) cbs logs2
  (⟨po.1, po.2, su.2, logs3⟩, runningLoss + loss,
    tr2 ++ [Event.onBatchEnd batchIdx epoch])

/-- The batch loop of `VAE._train` over the enumerated loader. -/
def VAEController.trainBatches (V : VAEController) (cbs : List Callback)
    (epoch numBatches : Nat) :
    List (Nat × Batch) → TrainState → ℚ → TrainState × ℚ × Trace
  | [], st, r => (st, r, [])
  | (i, b) :: rest, st, r =>
      let s1 := V.trainBatchStep cbs epoch numBatches i b st r
      let s2 := V.trainBatches cbs epoch numBatches rest s1.1 s1.2.1
      (s2.1, s2.2.1, s1.2.2 ++ s2.2.2)

/-- `VAE._train`: run the batch loop, then compute
`train_loss_ave = train_loss / (batch_idx + 1)`; with an empty loader the
read of `batch_idx` raises `NameError`; with callbacks attached write
`train_loss_average` into `logs`. -/
def VAEController.trainPass (V : VAEController) (cbs : List Callback)
    (loader : List Batch) (epoch : Nat) (st : TrainState) : RunRes :=
  let res := V.trainBatches cbs epoch loader.length loader.enum st 0
  if loader.isEmpty then
    Except.error (RunError.nameError "batch_idx", res.1, res.2.2)
  else
    let ave := res.2.1 / (loader.length : ℚ)
    let logs2 :=
      if cbs.isEmpty then res.1.logs
      else res.1.logs.insert "train_loss_average" (LogVal.num ave)
    let tr2 :=
      if cbs.isEmpty then res.2.2
      else res.2.2 ++ [Event.logWrite "train_loss_average" ave]
    Except.ok (⟨res.1.params, res.1.opt, res.1.scaler, logs2⟩, tr2)

/-- One iteration of the batch loop of `VAE._validate` (under
`torch.no_grad`): forward, accumulate
`lambda_rec * valid_loss_rec + valid_loss_kld`, fire
`on_validation_batch_end` with the detached `rmsd`, `fnc`, `mu`. -/
def VAEController.validBatchStep (V : VAEController) (cbs : List Callback)
    (epoch batchIdx : Nat) (b : Batch) (st : TrainState) (acc : ℚ) :
    TrainState × ℚ × Trace :=
  let fo := V.M.forward st.params b.data
  let pr := V.loss_fnc fo.logits b.data fo.mu fo.logvar
  let logs1 := fireAll
    (fun cb => cb.on_validation_batch_end epoch batchIdx b.rmsd b.fnc fo.mu)
    cbs st.logs
  (⟨st.params, st.opt, st.scaler, logs1⟩,
    acc + (V.lambda_rec * pr.1 + pr.2),
    [Event.onValidationBatchEnd epoch batchIdx])

/-- The batch loop of `VAE._validate` over the enumerated loader. -/
def VAEController.validBatches (V : VAEController) (cbs : List Callback)
    (epoch : Nat) :
    List (Nat × Batch) → TrainState → ℚ → TrainState × ℚ × Trace
  | [], st, acc => (st, acc, [])
  | (i, b) :: rest, st, acc =>
      let s1 := V.validBatchStep cbs epoch i b st acc
      let s2 := V.validBatches cbs epoch rest s1.1 s1.2.1
      (s2.1, s2.2.1, s1.2.2 ++ s2.2.2)

/-- The per-batch validation losses `lambda_rec * rec + kld` that
`VAE._validate` accumulates, as a list; the model parameters are constant
across the pass (no optimizer step is taken). -/
def VAEController.validLossList (V : VAEController) (p : Params) :
    List Batch → List ℚ
  | [] => []
  | b :: rest =>
      let fo := V.M.forward p b.data
      let pr := V.loss_fnc fo.logits b.data fo.mu fo.logvar
      (V.lambda_rec * pr.1 + pr.2) :: V.validLossList p rest

/-- `VAE._validate`: fire `on_validation_begin`, run the batch loop, divide
by `batch_idx + 1` (raising `NameError` on an empty loader), write
`valid_loss` when callbacks are attached, fire `on_validation_end`. -/
def VAEController.validatePass (V : VAEController) (cbs : List Callback)
    (loader : List Batch) (epoch : Nat) (st : TrainState) : RunRes :=
  let logs0 := fireAll (fun cb => cb.on_validation_begin epoch) cbs st.logs
  let st0 : TrainState := ⟨st.params, st.opt, st.scaler, logs0⟩
  let res := V.validBatches cbs epoch loader.enum st0 0
  let tr0 : Trace := Event.onValidationBegin epoch :: res.2.2
  if loader.isEmpty then
    Except.error (RunError.nameError "batch_idx", res.1, tr0)
  else
    let vave := res.2.1 / (loader.length : ℚ)
    let logs1 :=
      if cbs.isEmpty then res.1.logs
      else res.1.logs.insert "valid_loss" (LogVal.num vave)
    let tr1 :=
      if cbs.isEmpty then tr0
      else tr0 ++ [Event.logWrite "valid_loss" vave]
    let logs2 := fireAll (fun cb => cb.on_validation_end epoch) cbs logs1
    Except.ok (⟨res.1.params, res.1.opt, res.1.scaler, logs2⟩,
      tr1 ++ [Event.onValidationEnd epoch])

/-- The epoch loop of `VAE.train`: for each epoch fire `on_epoch_begin`,
run the training pass, run the validation pass, fire `on_epoch_end`. -/
def VAEController.runEpochs (V : VAEController) (cbs : List Callback)
    (tl vl : List Batch) : List Nat → TrainState → RunRes
  | [], st => Except.ok (st, [])
  | e :: rest, st =>
      let logs1 := fireAll (fun cb => cb.on_epoch_begin e) cbs st.logs
      let st1 : TrainState := ⟨st.params, st.opt, st.scaler, logs1⟩
      match V.trainPass cbs tl e st1 with
      | Except.error (err, stE, trD) =>
          Except.error (err, stE, Event.onEpochBegin e :: trD)
      | Except.ok (st2, trT) =>
          match V.validatePass cbs vl e st2 with
          | Except.error (err, stE, trD) =>
              Except.error (err, stE, Event.onEpochBegin e :: (trT ++ trD))
          | Except.ok (st3, trV) =>
              let logs4 := fireAll (fun cb => cb.on_epoch_end e) cbs st3.logs
              let st4 : TrainState := ⟨st3.params, st3.opt, st3.scaler, logs4⟩
              match V.runEpochs cbs tl vl rest st4 with
              | Except.error (err, stE, trD) =>
                  Except.error (err, stE,
                    Event.onEpochBegin e ::
                      (trT ++ trV ++ [Event.onEpochEnd e] ++ trD))
              | Except.ok (st5, trR) =>
                  Except.ok (st5,
                    Event.onEpochBegin e ::
                      (trT ++ trV ++ [Event.onEpochEnd e] ++ trR))

/-- `VAE._load_checkpoint`: read `encoder_state_dict`, load it into the
encoder in place; read `decoder_state_dict`, load into the decoder; read
`optimizer_state_dict`, load into the optimizer; return `cp["epoch"]`.
A missing field raises `KeyError` at its access site, carrying the
partially updated state reached so far. -/
def VAEController.load_checkpoint (V : VAEController) (cp : Checkpoint)
    (p : Params) (o : OptSt) :
    Except (String × Params × OptSt) ((Params × OptSt) × Nat) :=
  match cp.encoder_state_dict with
  | none => Except.error ("encoder_state_dict", p, o)
  | some enc =>
      let p1 := V.M.loadEncoderState p enc
      match cp.decoder_state_dict with
      | none => Except.error ("decoder_state_dict", p1, o)
      | some dec =>
          let p2 := V.M.loadDecoderState p1 dec
          match cp.optimizer_state_dict with
          | none => Except.error ("optimizer_state_dict", p2, o)
          | some osd =>
              let o1 := V.optLoadState o osd
              match cp.epoch with
              | none => Except.error ("epoch", p2, o1)
              | some e => Except.ok ((p2, o1), e)

/-- The initial `logs` built at the top of `VAE.train`: empty when no
callbacks are attached; otherwise the model and optimizer handles, plus
`comm_size` when the distributed runtime is initialized. -/
def VAEController.initLogs (V : VAEController) (cbs : List Callback) : Logs :=
  if cbs.isEmpty then []
  else
    let base : Logs :=
      [("model", LogVal.model V.params0), ("optimizer", LogVal.optim V.opt0)]
    if V.dist_initialized then base ++ [("comm_size", LogVal.natv V.comm_size)]
    else base

/-- The tail of `VAE.train` once `start_epoch` is known: fire
`on_train_begin`, run `for epoch in range(start_epoch, epochs + 1)`, fire
`on_train_end`. -/
def VAEController.trainFromEpoch (V : VAEController) (cbs : List Callback)
    (tl vl : List Batch) (epochs start_epoch : Nat) (st0 : TrainState) :
    RunRes :=
  let logs1 := fireAll (fun cb => cb.on_train_begin) cbs st0.logs
  let st1 : TrainState := ⟨st0.params, st0.opt, st0.scaler, logs1⟩
  match V.runEpochs cbs tl vl
      (List.range' start_epoch (epochs + 1 - start_epoch)) st1 with
  | Except.error (err, stE, trD) =>
      Except.error (err, stE, Event.onTrainBegin :: trD)
  | Except.ok (st2, trR) =>
      let logs2 := fireAll (fun cb => cb.on_train_end) cbs st2.logs
      Except.ok (⟨st2.params, st2.opt, st2.scaler, logs2⟩,
        Event.onTrainBegin :: (trR ++ [Event.onTrainEnd]))

/-- `VAE.train(train_loader, valid_loader, epochs, checkpoint, callbacks)`:
build the initial `logs`; `start_epoch = 1`, plus the checkpoint epoch when
a checkpoint is given (a corrupt checkpoint raises before any hook fires);
then run the epoch loop between `on_train_begin` and `on_train_end`. -/
def VAEController.train (V : VAEController) (tl vl : List Batch)
    (epochs : Nat) (checkpoint : Option Checkpoint) (cbs : List Callback) :
    RunRes :=
  let st0 : TrainState :=
    ⟨V.params0, V.opt0, ⟨V.enable_amp, V.scfg.init_scale, 0⟩, V.initLogs cbs⟩
  match checkpoint with
  | none => V.trainFromEpoch cbs tl vl epochs 1 st0
  | some cp =>
      match V.load_checkpoint cp st0.params st0.opt with
      | Except.error (key, p, o) =>
          Except.error (RunError.keyError key, ⟨p, o, st0.scaler, st0.logs⟩, [])
      | Except.ok (po, e) =>
          V.trainFromEpoch cbs tl vl epochs (1 + e)
            ⟨po.1, po.2, st0.scaler, st0.logs⟩

/-- The epochs whose `on_epoch_begin` dispatch point appears in a trace. -/
def epochsVisited (tr : Trace) : List Nat :=
  tr.filterMap fun e =>
    match e with
    | Event.onEpochBegin n => some n
    | _ => none

/-- The values written to `logs[k]` by the controller, in trace order. -/
def keyWrites (k : String) (tr : Trace) : List ℚ :=
  tr.filterMap fun e =>
    match e with
    | Event.logWrite k2 v => if k2 = k then some v else none
    | _ => none

/-- All controller writes to `logs` recorded in a trace. -/
def logWritesOf (tr : Trace) : List (String × ℚ) :=
  tr.filterMap fun e =>
    match e with
    | Event.logWrite k v => some (k, v)
    | _ => none

/-- The trace of a run result, also on the error path. -/
def runTrace : RunRes → Trace
  | Except.ok (_, tr) => tr
  | Except.error (_, _, tr) => tr

/-- The error a run raised, if any. -/
def runErr : RunRes → Option RunError
  | Except.ok _ => none
  | Except.error (e, _, _) => some e

/-- The final state and trace of a successful run. -/
def runOkPart : RunRes → Option (TrainState × Trace)
  | Except.ok r => some r
  | Except.error _ => none

/-- The numeric components (parameters, optimizer state, scaler state) of a
successful run's final state. -/
def runNumState : RunRes → Option (Params × OptSt × GradScaler)
  | Except.ok (st, _) => some (st.params, st.opt, st.scaler)
  | Except.error _ => none

/-- The epochs visited by a successful run, if it succeeded. -/
def epochsOfRun (r : RunRes) : Option (List Nat) :=
  (runOkPart r).map (fun p => epochsVisited p.2)

/-! ## Concrete instances used by the witnesses -/

/-- A tiny concrete torch collaborator for witness runs. -/
def demoModel : TorchModel where
  forward := fun p d => ⟨d, p, [0], [0]⟩
  gradsFinite := fun _ _ => true
  optStep := fun p o => (p.map (fun q => q + 1), o)
  loadEncoderState := fun p sd => sd ++ p.drop sd.length
  loadDecoderState := fun p sd => p.take sd.length
  
/-- A tiny concrete controller (full precision) for witness runs. -/
def demoV : VAEController where
  M := demoModel
  loss_fnc := vae_logit_loss (fun _ => 1) (fun _ => 0)
  lambda_rec := 1
  enable_amp := false
  params0 := [0]
  opt0 := [0]
  optLoadState := fun _ osd => osd

/-- A concrete controller with mixed precision enabled and a model whose
gradients are never finite, for the scaler-skip witness. -/
def demoVamp : VAEController where
  M := { demoModel with gradsFinite := fun _ _ => false }
  loss_fnc := vae_logit_loss (fun _ => 1) (fun _ => 0)
  lambda_rec := 1
  enable_amp := true
  params0 := [0]
  opt0 := [0]
  optLoadState := fun _ osd => osd

/-- A concrete batch for witness runs. -/
def demoBatch : Batch := ⟨[1 / 2], [0], [0], [0]⟩

/-- A concrete mid-run training state for witness runs. -/
def demoSt : TrainState := ⟨[0], [0], ⟨false, 65536, 0⟩, []⟩

/-- A concrete mid-run training state with scaling enabled. -/
def demoStAmp : TrainState := ⟨[0], [0], ⟨true, 65536, 0⟩, []⟩

/-- A concrete callback for witness runs: records that `on_epoch_end` ran. -/
def demoCb : Callback where
  on_train_begin := id
  on_epoch_begin := fun _ => id
  on_batch_begin := fun _ _ => id
  on_batch_end := fun _ _ => id
  on_epoch_end := fun _ l => l.insert "seen" (LogVal.num 1)
  on_validation_begin := fun _ => id
  on_validation_batch_end := fun _ _ _ _ _ => id
  on_validation_end := fun _ => id
  on_train_end := id

/-! ## Helper lemmas -/

theorem zipWith_gauss_replicate_zero (ex : ℚ → ℚ) (hexp : ex 0 = 1) :
    ∀ n : Nat,
      List.zipWith (fun m lv => 1 + lv - m ^ 2 - ex lv)
        (List.replicate n (0 : ℚ)) (List.replicate n (0 : ℚ))
        = List.replicate n 0
  | 0 => rfl
  | n + 1 => by
      simp only [List.replicate_succ, List.zipWith_cons_cons,
        zipWith_gauss_replicate_zero ex hexp n, hexp]
      norm_num

theorem trainPass_isOk_of_ne_nil (V : VAEController) (cbs : List Callback)
    (loader : List Batch) (e : Nat) (st : TrainState) (h : loader ≠ []) :
    exIsOk (V.trainPass cbs loader e st) = true := by
  have hne : loader.isEmpty = false := by
    simpa [List.isEmpty_iff] using h
  simp [VAEController.trainPass, hne, exIsOk]

/-! ## Claim theorems (C2, C3, C4, C5) -/

/-- C2: the controller dispatches every lifecycle hook with
`for callback in callbacks: callback.hook(...)`, i.e. `fireAll`: callbacks
fire in list order and each receives the single shared `logs` produced by
its predecessors; in particular for `[A, B]` at `on_epoch_end`, `B` is
applied to exactly the mapping `A` returned, so `B` observes `A`'s write. -/
theorem C2_callback_order_shared_logs (A B c : Callback) (e : Nat)
    (logs : Logs) (f : Callback → Logs → Logs) (cbs : List Callback) :
    fireAll f [] logs = logs
  ∧ fireAll f (c :: cbs) logs = fireAll f cbs (f c logs)
  ∧ fireAll (fun cb l => cb.on_epoch_end e l) [A, B] logs
      = B.on_epoch_end e (A.on_epoch_end e logs) :=
  ⟨rfl, rfl, rfl⟩

/-- C5: device resolution: `None` and pairs containing `None` resolve both
targets to cuda when available else cpu; an int resolves both targets to
that cuda device; a full pair resolves the targets independently; an
explicit request without CUDA fails with a `ValueError`-kind error. -/
theorem C5_device_resolution (avail : Bool) (k a b : Nat) :
    configure_device avail GpuArg.noneArg
      = configure_device avail (GpuArg.pairArg none none)
  ∧ configure_device avail GpuArg.noneArg
      = Except.ok ((if avail then TDevice.cuda none else TDevice.cpu),
                   (if avail then TDevice.cuda none else TDevice.cpu))
  ∧ (avail = true →
      configure_device avail (GpuArg.intArg k)
        = Except.ok (TDevice.cuda (some k), TDevice.cuda (some k)))
  ∧ (avail = true →
      configure_device avail (GpuArg.pairArg (some a) (some b))
        = Except.ok (TDevice.cuda (some a), TDevice.cuda (some b)))
  ∧ configure_device avail (GpuArg.pairArg none (some b))
      = configure_device avail GpuArg.noneArg
  ∧ configure_device avail (GpuArg.pairArg (some a) none)
      = configure_device avail GpuArg.noneArg
  ∧ (avail = false →
      exIsOk (configure_device avail (GpuArg.intArg k)) = false
      ∧ exIsOk (configure_device avail (GpuArg.pairArg (some a) (some b)))
          = false) := by
  cases avail <;> simp [configure_device, exIsOk]

/-- Witness for C5 at concrete inputs. -/
theorem C5_device_resolution_witness :
    configure_device true (GpuArg.intArg 3)
      = Except.ok (TDevice.cuda (some 3), TDevice.cuda (some 3))
  ∧ configure_device true (GpuArg.pairArg (some 2) (some 5))
      = Except.ok (TDevice.cuda (some 2), TDevice.cuda (some 5))
  ∧ exIsOk (configure_device false (GpuArg.intArg 3)) = false :=
  ⟨(C5_device_resolution true 3 2 5).2.2.1 rfl,
   (C5_device_resolution true 3 2 5).2.2.2.1 rfl,
   ((C5_device_resolution false 3 2 5).2.2.2.2.2.2 rfl).1⟩

/-- C4: in both the training batch step and the validation batch step the
accumulated total loss is exactly `lambda_rec * BCE + KLD`, where BCE is the
stabilized binary cross-entropy on the decoder's pre-activation logits
against the batch data and KLD the closed-form Gaussian divergence; and for
`mu = logvar = 0` the KL term evaluates to exactly `0` (for any exponential
with `ex 0 = 1`). -/
theorem C4_loss_semantics (V : VAEController) (ex sp : ℚ → ℚ)
    (hloss : V.loss_fnc = vae_logit_loss ex sp) (hexp : ex 0 = 1)
    (cbs : List Callback) (e n i : Nat) (b : Batch) (st : TrainState)
    (r acc : ℚ) (m : Nat) :
    (V.trainBatchStep cbs e n i b st r).2.1
      = r + (V.lambda_rec
          * bce_with_logits sp (V.M.forward st.params b.data).logits b.data
          + kld_term ex (V.M.forward st.params b.data).mu
              (V.M.forward st.params b.data).logvar)
  ∧ (V.validBatchStep cbs e i b st acc).2.1
      = acc + (V.lambda_rec
          * bce_with_logits sp (V.M.forward st.params b.data).logits b.data
          + kld_term ex (V.M.forward st.params b.data).mu
              (V.M.forward st.params b.data).logvar)
  ∧ kld_term ex (List.replicate m 0) (List.replicate m 0) = 0 := by
  refine ⟨?_, ?_, ?_⟩
  · simp [VAEController.trainBatchStep, hloss, vae_logit_loss]
  · simp [VAEController.validBatchStep, hloss, vae_logit_loss]
  · rw [kld_term, zipWith_gauss_replicate_zero ex hexp m]
    simp [qmean]

/-- Witness for C4 at a concrete controller, batch and state. -/
theorem C4_loss_semantics_witness :
    (demoV.trainBatchStep [] 1 1 0 demoBatch demoSt 0).2.1
      = 0 + (demoV.lambda_rec
          * bce_with_logits (fun _ => 0)
              (demoV.M.forward demoSt.params demoBatch.data).logits
              demoBatch.data
          + kld_term (fun _ => 1)
              (demoV.M.forward demoSt.params demoBatch.data).mu
              (demoV.M.forward demoSt.params demoBatch.data).logvar)
  ∧ kld_term (fun _ => 1) (List.replicate 2 0) (List.replicate 2 0) = 0 := by
  have h := C4_loss_semantics demoV (fun _ => 1) (fun _ => 0) rfl rfl
    [] 1 1 0 demoBatch demoSt 0 0 2
  exact ⟨h.1, h.2.2⟩

/-- C3: in the mixed-precision training step, when the batch's gradients
are non-finite the optimizer step is skipped (parameters and optimizer
state unchanged), the loss-scale factor strictly decreases, the batch's
loss still enters the running training-loss sum, and the training pass
containing the batch still succeeds (no error surfaces to the caller). -/
theorem C3_amp_nonfinite_skip (V : VAEController) (cbs : List Callback)
    (e n i : Nat) (b : Batch) (st : TrainState) (r : ℚ)
    (hamp : st.scaler.enabled = true)
    (hfin : ∀ l, V.M.gradsFinite st.params l = false)
    (hscale : 0 < st.scaler.scale)
    (hb0 : 0 < V.scfg.backoff_factor) (hb1 : V.scfg.backoff_factor < 1) :
    (V.trainBatchStep cbs e n i b st r).1.params = st.params
  ∧ (V.trainBatchStep cbs e n i b st r).1.opt = st.opt
  ∧ (V.trainBatchStep cbs e n i b st r).1.scaler.scale < st.scaler.scale
  ∧ (V.trainBatchStep cbs e n i b st r).2.1
      = r + (V.lambda_rec
          * (V.loss_fnc (V.M.forward st.params b.data).logits b.data
              (V.M.forward st.params b.data).mu
              (V.M.forward st.params b.data).logvar).1
          + (V.loss_fnc (V.M.forward st.params b.data).logits b.data
              (V.M.forward st.params b.data).mu
              (V.M.forward st.params b.data).logvar).2)
  ∧ ∀ bs : List Batch, exIsOk (V.trainPass cbs (b :: bs) e st) = true := by
  refine ⟨?_, ?_, ?_, ?_, ?_⟩
  · simp [VAEController.trainBatchStep, GradScaler.stepAndUpdate, hamp, hfin]
  · simp [VAEController.trainBatchStep, GradScaler.stepAndUpdate, hamp, hfin]
  · simp only [VAEController.trainBatchStep, GradScaler.stepAndUpdate,
      hamp, hfin]
    simpa using mul_lt_of_lt_one_right hscale hb1
  · simp [VAEController.trainBatchStep]
  · intro bs
    exact trainPass_isOk_of_ne_nil V cbs (b :: bs) e st (by simp)

/-- Witness for C3: a concrete amp-enabled controller whose gradients are
never finite, applied to a concrete batch. -/
theorem C3_amp_nonfinite_skip_witness :
    (demoVamp.trainBatchStep [] 1 1 0 demoBatch demoStAmp 0).1.params
      = demoStAmp.params
  ∧ (demoVamp.trainBatchStep [] 1 1 0 demoBatch demoStAmp 0).1.scaler.scale
      < demoStAmp.scaler.scale
  ∧ exIsOk (demoVamp.trainPass [] [demoBatch] 1 demoStAmp) = true := by
  have h := C3_amp_nonfinite_skip demoVamp [] 1 1 0 demoBatch demoStAmp 0
    rfl (fun _ => rfl) (by norm_num [demoStAmp]) (by norm_num [demoVamp])
    (by norm_num [demoVamp])
  exact ⟨h.1, h.2.2.1, h.2.2.2.2 []⟩

/-! ## Trace decomposition lemmas for the loop -/

theorem epochsVisited_append (a b : Trace) :
    epochsVisited (a ++ b) = epochsVisited a ++ epochsVisited b := by
  simp [epochsVisited, List.filterMap_append]

theorem keyWrites_append (k : String) (a b : Trace) :
    keyWrites k (a ++ b) = keyWrites k a ++ keyWrites k b := by
  simp [keyWrites, List.filterMap_append]

theorem logWritesOf_append (a b : Trace) :
    logWritesOf (a ++ b) = logWritesOf a ++ logWritesOf b := by
  simp [logWritesOf, List.filterMap_append]

theorem trainBatchStep_trace (V : VAEController) (cbs : List Callback)
    (e n i : Nat) (b : Batch) (st : TrainState) (r : ℚ) :
    epochsVisited (V.trainBatchStep cbs e n i b st r).2.2 = []
  ∧ keyWrites "train_loss_average" (V.trainBatchStep cbs e n i b st r).2.2 = []
  ∧ keyWrites "valid_loss" (V.trainBatchStep cbs e n i b st r).2.2 = []
  ∧ keyWrites "global_step" (V.trainBatchStep cbs e n i b st r).2.2
      = (if cbs.isEmpty then [] else [(((e - 1) * n + i : Nat) : ℚ)])
  ∧ (cbs.isEmpty = false →
      (V.trainBatchStep cbs e n i b st r).2.1
        = r + (keyWrites "train_loss"
            (V.trainBatchStep cbs e n i b st r).2.2).sum)
  ∧ (cbs.isEmpty = true →
      logWritesOf (V.trainBatchStep cbs e n i b st r).2.2 = []) := by
  cases hc : cbs.isEmpty <;>
    simp [VAEController.trainBatchStep, hc, epochsVisited, keyWrites,
      logWritesOf]

theorem trainBatches_trace (V : VAEController) (cbs : List Callback)
    (e n : Nat) :
    ∀ (ebs : List (Nat × Batch)) (st : TrainState) (r : ℚ),
    epochsVisited (V.trainBatches cbs e n ebs st r).2.2 = []
  ∧ keyWrites "train_loss_average" (V.trainBatches cbs e n ebs st r).2.2 = []
  ∧ keyWrites "valid_loss" (V.trainBatches cbs e n ebs st r).2.2 = []
  ∧ keyWrites "global_step" (V.trainBatches cbs e n ebs st r).2.2
      = (if cbs.isEmpty then []
         else ebs.map (fun p => (((e - 1) * n + p.1 : Nat) : ℚ)))
  ∧ (cbs.isEmpty = false →
      (V.trainBatches cbs e n ebs st r).2.1
        = r + (keyWrites "train_loss"
            (V.trainBatches cbs e n ebs st r).2.2).sum)
  ∧ (cbs.isEmpty = true →
      logWritesOf (V.trainBatches cbs e n ebs st r).2.2 = [])
  | [], st, r => by
      cases hc : cbs.isEmpty <;>
        simp [VAEController.trainBatches, hc, epochsVisited, keyWrites,
          logWritesOf]
  | (i, b) :: rest, st, r => by
      have hstep := trainBatchStep_trace V cbs e n i b st r
      have hrest := trainBatches_trace V cbs e n rest
        (V.trainBatchStep cbs e n i b st r).1
        (V.trainBatchStep cbs e n i b st r).2.1
      refine ⟨?_, ?_, ?_, ?_, ?_, ?_⟩
      · simp [VAEController.trainBatches, epochsVisited_append,
          hstep.1, hrest.1]
      · simp [VAEController.trainBatches, keyWrites_append,
          hstep.2.1, hrest.2.1]
      · simp [VAEController.trainBatches, keyWrites_append,
          hstep.2.2.1, hrest.2.2.1]
      · cases hc : cbs.isEmpty <;>
          simp [VAEController.trainBatches, keyWrites_append, hc,
            hstep.2.2.2.1, hrest.2.2.2.1]
      · intro hc
        have h1 := hstep.2.2.2.2.1 hc
        have h2 := hrest.2.2.2.2.1 hc
        simp only [VAEController.trainBatches]
        rw [h2, h1, keyWrites_append, List.sum_append]
        ring
      · intro hc
        simp [VAEController.trainBatches, logWritesOf_append,
          hstep.2.2.2.2.2 hc, hrest.2.2.2.2.2 hc]

theorem keyWrites_eq_nil (k : String) :
    ∀ tr : Trace, logWritesOf tr = [] → keyWrites k tr = []
  | [], _ => rfl
  | ev :: tr, h => by
      have hrec := fun h2 => keyWrites_eq_nil k tr h2
      cases ev <;>
        simp only [logWritesOf, keyWrites, List.filterMap_cons] at h ⊢ <;>
        first
          | exact hrec h
          | exact (List.cons_ne_nil _ _ h).elim

theorem keyWrites_singleton (k k2 : String) (v : ℚ) :
    keyWrites k [Event.logWrite k2 v] = if k2 = k then [v] else [] := by
  by_cases h : k2 = k <;> simp [keyWrites, List.filterMap_cons, h]

theorem epochsVisited_singleton (k : String) (v : ℚ) :
    epochsVisited [Event.logWrite k v] = [] := rfl

theorem trainPass_trace (V : VAEController) (cbs : List Callback)
    (tl : List Batch) (e : Nat) (st : TrainState)
    (h : tl.isEmpty = false) :
    epochsVisited (runTrace (V.trainPass cbs tl e st)) = []
  ∧ keyWrites "valid_loss" (runTrace (V.trainPass cbs tl e st)) = []
  ∧ keyWrites "global_step" (runTrace (V.trainPass cbs tl e st))
      = (if cbs.isEmpty then []
         else (List.range tl.length).map
           (fun j => (((e - 1) * tl.length + j : Nat) : ℚ)))
  ∧ keyWrites "train_loss_average" (runTrace (V.trainPass cbs tl e st))
      = (if cbs.isEmpty then []
         else [(keyWrites "train_loss"
             (runTrace (V.trainPass cbs tl e st))).sum / (tl.length : ℚ)])
  ∧ (cbs.isEmpty = true →
      logWritesOf (runTrace (V.trainPass cbs tl e st)) = []) := by
  have hb := trainBatches_trace V cbs e tl.length tl.enum st 0
  have hfst : tl.enum.map (fun p => (((e - 1) * tl.length + p.1 : Nat) : ℚ))
      = (List.range tl.length).map
          (fun j => (((e - 1) * tl.length + j : Nat) : ℚ)) := by
    rw [← List.enum_map_fst tl, List.map_map]
    rfl
  cases hc : cbs.isEmpty
  · have hsum := hb.2.2.2.2.1 hc
    have htr : runTrace (V.trainPass cbs tl e st)
        = (V.trainBatches cbs e tl.length tl.enum st 0).2.2
          ++ [Event.logWrite "train_loss_average"
                ((V.trainBatches cbs e tl.length tl.enum st 0).2.1
                  / (tl.length : ℚ))] := by
      simp [VAEController.trainPass, h, hc, runTrace]
    refine ⟨?_, ?_, ?_, ?_, ?_⟩
    · rw [htr, epochsVisited_append, hb.1, epochsVisited_singleton]
      rfl
    · rw [htr, keyWrites_append, hb.2.2.1, keyWrites_singleton]
      simp
    · rw [htr, keyWrites_append, hb.2.2.2.1, keyWrites_singleton]
      simp [hc]
      rw [← List.enum_map_fst tl, List.map_map]
      rfl
    · have hnone : keyWrites "train_loss"
          [Event.logWrite "train_loss_average"
            ((V.trainBatches cbs e tl.length tl.enum st 0).2.1
              / (tl.length : ℚ))] = [] := by
        rw [keyWrites_singleton]
        simp
      simp only [htr, keyWrites_append, hb.2.1, hnone, List.nil_append,
        List.append_nil]
      rw [keyWrites_singleton, hsum]
      simp [hc]
    · intro hcc
      simp [hc] at hcc
  · have htr : runTrace (V.trainPass cbs tl e st)
        = (V.trainBatches cbs e tl.length tl.enum st 0).2.2 := by
      simp [VAEController.trainPass, h, hc, runTrace]
    refine ⟨?_, ?_, ?_, ?_, ?_⟩
    · rw [htr, hb.1]
    · rw [htr, hb.2.2.1]
    · rw [htr, hb.2.2.2.1]
      simp [hc]
    · rw [htr, hb.2.1]
      simp [hc]
    · intro hcc
      rw [htr]
      exact hb.2.2.2.2.2 hc

theorem validBatches_trace (V : VAEController) (cbs : List Callback)
    (e : Nat) :
    ∀ (ebs : List (Nat × Batch)) (st : TrainState) (acc : ℚ),
    (V.validBatches cbs e ebs st acc).1.params = st.params
  ∧ epochsVisited (V.validBatches cbs e ebs st acc).2.2 = []
  ∧ logWritesOf (V.validBatches cbs e ebs st acc).2.2 = []
  ∧ (V.validBatches cbs e ebs st acc).2.1
      = acc + (V.validLossList st.params (ebs.map Prod.snd)).sum
  | [], st, acc => by
      simp [VAEController.validBatches, epochsVisited, logWritesOf,
        VAEController.validLossList]
  | (i, b) :: rest, st, acc => by
      have hstep1 : (V.validBatchStep cbs e i b st acc).1.params = st.params :=
        by simp [VAEController.validBatchStep]
      have hrest := validBatches_trace V cbs e rest
        (V.validBatchStep cbs e i b st acc).1
        (V.validBatchStep cbs e i b st acc).2.1
      refine ⟨?_, ?_, ?_, ?_⟩
      · simp only [VAEController.validBatches]
        rw [hrest.1, hstep1]
      · simp only [VAEController.validBatches]
        rw [epochsVisited_append, hrest.2.1]
        simp [VAEController.validBatchStep, epochsVisited]
      · simp only [VAEController.validBatches]
        rw [logWritesOf_append, hrest.2.2.1]
        simp [VAEController.validBatchStep, logWritesOf]
      · simp only [VAEController.validBatches]
        rw [hrest.2.2.2, hstep1]
        have hacc : (V.validBatchStep cbs e i b st acc).2.1
            = acc + (V.lambda_rec
                * (V.loss_fnc (V.M.forward st.params b.data).logits b.data
                    (V.M.forward st.params b.data).mu
                    (V.M.forward st.params b.data).logvar).1
              + (V.loss_fnc (V.M.forward st.params b.data).logits b.data
                    (V.M.forward st.params b.data).mu
                    (V.M.forward st.params b.data).logvar).2) := by
          simp [VAEController.validBatchStep]
        rw [hacc]
        simp [VAEController.validLossList]
        ring

theorem validatePass_isOk_of_ne_nil (V : VAEController) (cbs : List Callback)
    (loader : List Batch) (e : Nat) (st : TrainState) (h : loader ≠ []) :
    exIsOk (V.validatePass cbs loader e st) = true := by
  have hne : loader.isEmpty = false := by
    simpa [List.isEmpty_iff] using h
  simp [VAEController.validatePass, hne, exIsOk]

theorem validatePass_trace (V : VAEController) (cbs : List Callback)
    (vl : List Batch) (e : Nat) (st : TrainState)
    (h : vl.isEmpty = false) :
    epochsVisited (runTrace (V.validatePass cbs vl e st)) = []
  ∧ keyWrites "global_step" (runTrace (V.validatePass cbs vl e st)) = []
  ∧ keyWrites "train_loss_average" (runTrace (V.validatePass cbs vl e st)) = []
  ∧ keyWrites "train_loss" (runTrace (V.validatePass cbs vl e st)) = []
  ∧ keyWrites "valid_loss" (runTrace (V.validatePass cbs vl e st))
      = (if cbs.isEmpty then []
         else [(V.validLossList st.params vl).sum / (vl.length : ℚ)])
  ∧ (cbs.isEmpty = true →
      logWritesOf (runTrace (V.validatePass cbs vl e st)) = []) := by
  have hb := validBatches_trace V cbs e vl.enum
    ⟨st.params, st.opt, st.scaler,
      fireAll (fun cb => cb.on_validation_begin e) cbs st.logs⟩ 0
  have hsnd : vl.enum.map Prod.snd = vl := List.enum_map_snd vl
  have hnil := fun k =>
    keyWrites_eq_nil k
      (V.validBatches cbs e vl.enum
        ⟨st.params, st.opt, st.scaler,
          fireAll (fun cb => cb.on_validation_begin e) cbs st.logs⟩ 0).2.2
      hb.2.2.1
  cases hc : cbs.isEmpty
  · have htr : runTrace (V.validatePass cbs vl e st)
        = Event.onValidationBegin e ::
            ((V.validBatches cbs e vl.enum
              ⟨st.params, st.opt, st.scaler,
                fireAll (fun cb => cb.on_validation_begin e) cbs st.logs⟩
              0).2.2
            ++ [Event.logWrite "valid_loss"
                  ((V.validBatches cbs e vl.enum
                    ⟨st.params, st.opt, st.scaler,
                      fireAll (fun cb => cb.on_validation_begin e) cbs
                        st.logs⟩ 0).2.1 / (vl.length : ℚ))]
            ++ [Event.onValidationEnd e]) := by
      simp [VAEController.validatePass, h, hc, runTrace]
    refine ⟨?_, ?_, ?_, ?_, ?_, ?_⟩
    · rw [htr]
      simp only [epochsVisited, List.filterMap_cons]
      rw [← epochsVisited, epochsVisited_append, epochsVisited_append, hb.2.1]
      rfl
    · rw [htr]
      simp only [keyWrites, List.filterMap_cons]
      rw [← keyWrites, keyWrites_append, keyWrites_append,
        hnil "global_step", keyWrites_singleton]
      simp [keyWrites]
    · rw [htr]
      simp only [keyWrites, List.filterMap_cons]
      rw [← keyWrites, keyWrites_append, keyWrites_append,
        hnil "train_loss_average", keyWrites_singleton]
      simp [keyWrites]
    · rw [htr]
      simp only [keyWrites, List.filterMap_cons]
      rw [← keyWrites, keyWrites_append, keyWrites_append,
        hnil "train_loss", keyWrites_singleton]
      simp [keyWrites]
    · rw [htr]
      simp only [keyWrites, List.filterMap_cons]
      rw [← keyWrites, keyWrites_append, keyWrites_append,
        hnil "valid_loss", keyWrites_singleton, hb.2.2.2]
      simp [hc, hsnd, keyWrites]
    · intro hcc
      simp at hcc
  · have htr : runTrace (V.validatePass cbs vl e st)
        = Event.onValidationBegin e ::
            ((V.validBatches cbs e vl.enum
              ⟨st.params, st.opt, st.scaler,
                fireAll (fun cb => cb.on_validation_begin e) cbs st.logs⟩
              0).2.2
            ++ [Event.onValidationEnd e]) := by
      simp [VAEController.validatePass, h, hc, runTrace]
    refine ⟨?_, ?_, ?_, ?_, ?_, ?_⟩
    · rw [htr]
      simp only [epochsVisited, List.filterMap_cons]
      rw [← epochsVisited, epochsVisited_append, hb.2.1]
      rfl
    · rw [htr]
      simp only [keyWrites, List.filterMap_cons]
      rw [← keyWrites, keyWrites_append, hnil "global_step"]
      simp [keyWrites]
    · rw [htr]
      simp only [keyWrites, List.filterMap_cons]
      rw [← keyWrites, keyWrites_append, hnil "train_loss_average"]
      simp [keyWrites]
    · rw [htr]
      simp only [keyWrites, List.filterMap_cons]
      rw [← keyWrites, keyWrites_append, hnil "train_loss"]
      simp [keyWrites]
    · rw [htr]
      simp only [keyWrites, List.filterMap_cons]
      rw [← keyWrites, keyWrites_append, hnil "valid_loss"]
      simp [hc, keyWrites]
    · intro _
      rw [htr]
      simp only [logWritesOf, List.filterMap_cons]
      rw [← logWritesOf, logWritesOf_append, hb.2.2.1]
      rfl

theorem runEpochs_spec (V : VAEController) (cbs : List Callback)
    (tl vl : List Batch) (htl : tl.isEmpty = false)
    (hvl : vl.isEmpty = false) :
    ∀ (es : List Nat) (st : TrainState),
    exIsOk (V.runEpochs cbs tl vl es st) = true
  ∧ epochsVisited (runTrace (V.runEpochs cbs tl vl es st)) = es
  ∧ keyWrites "global_step" (runTrace (V.runEpochs cbs tl vl es st))
      = (if cbs.isEmpty then []
         else (es.map (fun e => (List.range tl.length).map
             (fun j => (((e - 1) * tl.length + j : Nat) : ℚ)))).flatten)
  ∧ (keyWrites "train_loss_average"
        (runTrace (V.runEpochs cbs tl vl es st))).length
      = (if cbs.isEmpty then 0 else es.length)
  ∧ (keyWrites "valid_loss" (runTrace (V.runEpochs cbs tl vl es st))).length
      = (if cbs.isEmpty then 0 else es.length)
  ∧ (cbs.isEmpty = true →
      logWritesOf (runTrace (V.runEpochs cbs tl vl es st)) = [])
  | [], st => by
      cases hc : cbs.isEmpty <;>
        simp [VAEController.runEpochs, exIsOk, runTrace, epochsVisited,
          keyWrites, logWritesOf, hc]
  | e :: rest, st => by
      have htl' : tl ≠ [] := fun hh => by simp [hh] at htl
      have hvl' : vl ≠ [] := fun hh => by simp [hh] at hvl
      have hTP := trainPass_trace V cbs tl e
        ⟨st.params, st.opt, st.scaler,
          fireAll (fun cb => cb.on_epoch_begin e) cbs st.logs⟩ htl
      have hTPok := trainPass_isOk_of_ne_nil V cbs tl e
        ⟨st.params, st.opt, st.scaler,
          fireAll (fun cb => cb.on_epoch_begin e) cbs st.logs⟩ htl'
      cases hTPe : V.trainPass cbs tl e
          ⟨st.params, st.opt, st.scaler,
            fireAll (fun cb => cb.on_epoch_begin e) cbs st.logs⟩ with
      | error err =>
          rw [hTPe] at hTPok
          simp [exIsOk] at hTPok
      | ok st2tr =>
      obtain ⟨st2, trT⟩ := st2tr
      rw [hTPe] at hTP
      simp only [runTrace] at hTP
      have hVP := validatePass_trace V cbs vl e st2 hvl
      have hVPok := validatePass_isOk_of_ne_nil V cbs vl e st2 hvl'
      cases hVPe : V.validatePass cbs vl e st2 with
      | error err =>
          rw [hVPe] at hVPok
          simp [exIsOk] at hVPok
      | ok st3tr =>
      obtain ⟨st3, trV⟩ := st3tr
      rw [hVPe] at hVP
      simp only [runTrace] at hVP
      have hIH := runEpochs_spec V cbs tl vl htl hvl rest
        ⟨st3.params, st3.opt, st3.scaler,
          fireAll (fun cb => cb.on_epoch_end e) cbs st3.logs⟩
      cases hRe : V.runEpochs cbs tl vl rest
          ⟨st3.params, st3.opt, st3.scaler,
            fireAll (fun cb => cb.on_epoch_end e) cbs st3.logs⟩ with
      | error err =>
          rw [hRe] at hIH
          simp [exIsOk] at hIH
      | ok st5tr =>
      obtain ⟨st5, trR⟩ := st5tr
      rw [hRe] at hIH
      simp only [runTrace] at hIH
      have hrun : V.runEpochs cbs tl vl (e :: rest) st
          = Except.ok (st5,
              Event.onEpochBegin e ::
                (trT ++ trV ++ [Event.onEpochEnd e] ++ trR)) := by
        simp only [VAEController.runEpochs, hTPe, hVPe, hRe]
      refine ⟨?_, ?_, ?_, ?_, ?_, ?_⟩
      · rw [hrun]
        rfl
      · rw [hrun]
        simp only [runTrace, epochsVisited, List.filterMap_cons]
        rw [← epochsVisited, epochsVisited_append, epochsVisited_append,
          epochsVisited_append, hTP.1, hVP.1, hIH.2.1]
        rfl
      · rw [hrun]
        simp only [runTrace, keyWrites, List.filterMap_cons]
        rw [← keyWrites, keyWrites_append, keyWrites_append,
          keyWrites_append, hTP.2.2.1, hVP.2.1, hIH.2.2.1]
        cases hc : cbs.isEmpty <;> simp [hc, keyWrites]
      · rw [hrun]
        simp only [runTrace, keyWrites, List.filterMap_cons]
        rw [← keyWrites, keyWrites_append, keyWrites_append,
          keyWrites_append, hTP.2.2.2.1, hVP.2.2.1]
        have hEnd : keyWrites "train_loss_average" [Event.onEpochEnd e]
            = [] := rfl
        rw [hEnd]
        cases hc : cbs.isEmpty <;> simp [hc, hIH.2.2.2.1]
      · rw [hrun]
        simp only [runTrace, keyWrites, List.filterMap_cons]
        rw [← keyWrites, keyWrites_append, keyWrites_append,
          keyWrites_append, hTP.2.1, hVP.2.2.2.2.1]
        have hEnd : keyWrites "valid_loss" [Event.onEpochEnd e] = [] := rfl
        rw [hEnd]
        cases hc : cbs.isEmpty <;> simp [hc, hIH.2.2.2.2.1]
      · intro hcc
        rw [hrun]
        simp only [runTrace, logWritesOf, List.filterMap_cons]
        rw [← logWritesOf, logWritesOf_append, logWritesOf_append,
          logWritesOf_append, hTP.2.2.2.2 hcc, hVP.2.2.2.2.2 hcc,
          hIH.2.2.2.2.2 hcc]
        rfl

theorem trainFromEpoch_spec (V : VAEController) (cbs : List Callback)
    (tl vl : List Batch) (htl : tl.isEmpty = false)
    (hvl : vl.isEmpty = false) (epochs start_epoch : Nat)
    (st0 : TrainState) :
    exIsOk (V.trainFromEpoch cbs tl vl epochs start_epoch st0) = true
  ∧ epochsVisited (runTrace (V.trainFromEpoch cbs tl vl epochs start_epoch
        st0)) = List.range' start_epoch (epochs + 1 - start_epoch)
  ∧ keyWrites "global_step" (runTrace (V.trainFromEpoch cbs tl vl epochs
        start_epoch st0))
      = (if cbs.isEmpty then []
         else ((List.range' start_epoch (epochs + 1 - start_epoch)).map
             (fun e => (List.range tl.length).map
               (fun j => (((e - 1) * tl.length + j : Nat) : ℚ)))).flatten)
  ∧ (keyWrites "train_loss_average" (runTrace (V.trainFromEpoch cbs tl vl
        epochs start_epoch st0))).length
      = (if cbs.isEmpty then 0 else epochs + 1 - start_epoch)
  ∧ (keyWrites "valid_loss" (runTrace (V.trainFromEpoch cbs tl vl epochs
        start_epoch st0))).length
      = (if cbs.isEmpty then 0 else epochs + 1 - start_epoch)
  ∧ (cbs.isEmpty = true →
      logWritesOf (runTrace (V.trainFromEpoch cbs tl vl epochs start_epoch
        st0)) = []) := by
  have hS := runEpochs_spec V cbs tl vl htl hvl
    (List.range' start_epoch (epochs + 1 - start_epoch))
    ⟨st0.params, st0.opt, st0.scaler,
      fireAll (fun cb => cb.on_train_begin) cbs st0.logs⟩
  cases hRe : V.runEpochs cbs tl vl
      (List.range' start_epoch (epochs + 1 - start_epoch))
      ⟨st0.params, st0.opt, st0.scaler,
        fireAll (fun cb => cb.on_train_begin) cbs st0.logs⟩ with
  | error err =>
      rw [hRe] at hS
      simp [exIsOk] at hS
  | ok st2tr =>
  obtain ⟨st2, trR⟩ := st2tr
  rw [hRe] at hS
  simp only [runTrace] at hS
  have hrun : V.trainFromEpoch cbs tl vl epochs start_epoch st0
      = Except.ok
          (⟨st2.params, st2.opt, st2.scaler,
            fireAll (fun cb => cb.on_train_end) cbs st2.logs⟩,
           Event.onTrainBegin :: (trR ++ [Event.onTrainEnd])) := by
    simp only [VAEController.trainFromEpoch, hRe]
  refine ⟨?_, ?_, ?_, ?_, ?_, ?_⟩
  · rw [hrun]
    rfl
  · rw [hrun]
    simp only [runTrace, epochsVisited, List.filterMap_cons]
    rw [← epochsVisited, epochsVisited_append, hS.2.1]
    simp [epochsVisited]
  · rw [hrun]
    simp only [runTrace, keyWrites, List.filterMap_cons]
    rw [← keyWrites, keyWrites_append, hS.2.2.1]
    have hEnd : keyWrites "global_step" [Event.onTrainEnd] = [] := rfl
    rw [hEnd]
    simp
  · rw [hrun]
    simp only [runTrace, keyWrites, List.filterMap_cons]
    rw [← keyWrites, keyWrites_append]
    have hEnd : keyWrites "train_loss_average" [Event.onTrainEnd] = [] := rfl
    rw [hEnd]
    cases hc : cbs.isEmpty <;>
      simp [hc, hS.2.2.2.1, List.length_range']
  · rw [hrun]
    simp only [runTrace, keyWrites, List.filterMap_cons]
    rw [← keyWrites, keyWrites_append]
    have hEnd : keyWrites "valid_loss" [Event.onTrainEnd] = [] := rfl
    rw [hEnd]
    cases hc : cbs.isEmpty <;>
      simp [hc, hS.2.2.2.2.1, List.length_range']
  · intro hcc
    rw [hrun]
    simp only [runTrace, logWritesOf, List.filterMap_cons]
    rw [← logWritesOf, logWritesOf_append, hS.2.2.2.2.2 hcc]
    rfl


theorem epochsOfRun_eq (r : RunRes) (h : exIsOk r = true) :
    epochsOfRun r = some (epochsVisited (runTrace r)) := by
  cases r with
  | ok p => simp [epochsOfRun, runOkPart, runTrace]
  | error e3 => simp [exIsOk] at h

theorem runErr_eq_none_of_isOk (r : RunRes) (h : exIsOk r = true) :
    runErr r = none := by
  cases r with
  | ok p => simp [runErr]
  | error e3 => simp [exIsOk] at h

theorem runErr_trainFromEpoch (V : VAEController) (cbs : List Callback)
    (tl vl : List Batch) (epochs s : Nat) (st0 : TrainState) :
    runErr (V.trainFromEpoch cbs tl vl epochs s st0)
      = runErr (V.runEpochs cbs tl vl (List.range' s (epochs + 1 - s))
          ⟨st0.params, st0.opt, st0.scaler,
            fireAll (fun cb => cb.on_train_begin) cbs st0.logs⟩) := by
  cases hR : V.runEpochs cbs tl vl (List.range' s (epochs + 1 - s))
      ⟨st0.params, st0.opt, st0.scaler,
        fireAll (fun cb => cb.on_train_begin) cbs st0.logs⟩ with
  | error e3 =>
      obtain ⟨err, stE, trD⟩ := e3
      simp [VAEController.trainFromEpoch, hR, runErr]
  | ok st2tr =>
      obtain ⟨st2, trR⟩ := st2tr
      simp [VAEController.trainFromEpoch, hR, runErr]

theorem runEpochs_train_nil (V : VAEController) (cbs : List Callback)
    (vl : List Batch) (e : Nat) (rest : List Nat) (st : TrainState) :
    runErr (V.runEpochs cbs [] vl (e :: rest) st)
      = some (RunError.nameError "batch_idx") := by
  have hTP : V.trainPass cbs [] e
      ⟨st.params, st.opt, st.scaler,
        fireAll (fun cb => cb.on_epoch_begin e) cbs st.logs⟩
      = Except.error (RunError.nameError "batch_idx",
          ⟨st.params, st.opt, st.scaler,
            fireAll (fun cb => cb.on_epoch_begin e) cbs st.logs⟩, []) := by
    simp [VAEController.trainPass, VAEController.trainBatches, List.enum]
  simp only [VAEController.runEpochs, hTP, runErr]

theorem runEpochs_valid_nil (V : VAEController) (cbs : List Callback)
    (tl : List Batch) (htl : tl.isEmpty = false) (e : Nat)
    (rest : List Nat) (st : TrainState) :
    runErr (V.runEpochs cbs tl [] (e :: rest) st)
      = some (RunError.nameError "batch_idx") := by
  have htl' : tl ≠ [] := fun hh => by simp [hh] at htl
  have hTPok := trainPass_isOk_of_ne_nil V cbs tl e
    ⟨st.params, st.opt, st.scaler,
      fireAll (fun cb => cb.on_epoch_begin e) cbs st.logs⟩ htl'
  cases hTPe : V.trainPass cbs tl e
      ⟨st.params, st.opt, st.scaler,
        fireAll (fun cb => cb.on_epoch_begin e) cbs st.logs⟩ with
  | error err =>
      rw [hTPe] at hTPok
      simp [exIsOk] at hTPok
  | ok st2tr =>
      obtain ⟨st2, trT⟩ := st2tr
      have hVP : V.validatePass cbs [] e st2
          = Except.error (RunError.nameError "batch_idx",
              ⟨st2.params, st2.opt, st2.scaler,
                fireAll (fun cb => cb.on_validation_begin e) cbs st2.logs⟩,
              [Event.onValidationBegin e]) := by
        simp [VAEController.validatePass, VAEController.validBatches,
          List.enum]
      simp only [VAEController.runEpochs, hTPe, hVP, runErr]

/-- C1: with no checkpoint the epoch loop consumes epochs `1..E`; with a
checkpoint recording epoch `E1` the controller restores state through the
in-place `load_state_dict` loaders applied to its own model/optimizer and
consumes epochs `E1+1..E`; the two resumed segments concatenate to exactly
the uncheckpointed sequence `1..E`. -/
theorem C1_resume_epochs (V : VAEController) (cbs : List Callback)
    (tl vl : List Batch) (E E1 : Nat) (enc dec : StateDict) (osd : OptSDict)
    (p : Params) (o : OptSt)
    (htl : tl ≠ []) (hvl : vl ≠ []) (hE : E1 ≤ E) :
    epochsOfRun (V.train tl vl E none cbs) = some (List.range' 1 E)
  ∧ epochsOfRun (V.train tl vl E
        (some ⟨some enc, some dec, some osd, some E1⟩) cbs)
      = some (List.range' (E1 + 1) (E - E1))
  ∧ List.range' 1 E1 ++ List.range' (E1 + 1) (E - E1) = List.range' 1 E
  ∧ V.load_checkpoint ⟨some enc, some dec, some osd, some E1⟩ p o
      = Except.ok ((V.M.loadDecoderState (V.M.loadEncoderState p enc) dec,
          V.optLoadState o osd), E1) := by
  have htl' : tl.isEmpty = false := by simpa [List.isEmpty_iff] using htl
  have hvl' : vl.isEmpty = false := by simpa [List.isEmpty_iff] using hvl
  refine ⟨?_, ?_, ?_, rfl⟩
  · have h1 := trainFromEpoch_spec V cbs tl vl htl' hvl' E 1
      ⟨V.params0, V.opt0, ⟨V.enable_amp, V.scfg.init_scale, 0⟩,
        V.initLogs cbs⟩
    have heq : V.train tl vl E none cbs
        = V.trainFromEpoch cbs tl vl E 1
            ⟨V.params0, V.opt0, ⟨V.enable_amp, V.scfg.init_scale, 0⟩,
              V.initLogs cbs⟩ := rfl
    rw [heq, epochsOfRun_eq _ h1.1, h1.2.1]
    simp
  · have h2 := trainFromEpoch_spec V cbs tl vl htl' hvl' E (1 + E1)
      ⟨V.M.loadDecoderState (V.M.loadEncoderState V.params0 enc) dec,
        V.optLoadState V.opt0 osd,
        ⟨V.enable_amp, V.scfg.init_scale, 0⟩, V.initLogs cbs⟩
    have heq : V.train tl vl E
          (some ⟨some enc, some dec, some osd, some E1⟩) cbs
        = V.trainFromEpoch cbs tl vl E (1 + E1)
            ⟨V.M.loadDecoderState (V.M.loadEncoderState V.params0 enc) dec,
              V.optLoadState V.opt0 osd,
              ⟨V.enable_amp, V.scfg.init_scale, 0⟩, V.initLogs cbs⟩ := rfl
    rw [heq, epochsOfRun_eq _ h2.1, h2.2.1,
      show 1 + E1 = E1 + 1 by omega, show E + 1 - (E1 + 1) = E - E1 by omega]
  · have hap := List.range'_append 1 E1 (E - E1) 1
    rw [show 1 + 1 * E1 = E1 + 1 by omega,
      show E - E1 + E1 = E by omega] at hap
    exact hap

/-- Witness for C1 at a concrete controller, loaders and checkpoint. -/
theorem C1_resume_epochs_witness :
    epochsOfRun (demoV.train [demoBatch] [demoBatch] 3 none [])
      = some (List.range' 1 3)
  ∧ epochsOfRun (demoV.train [demoBatch] [demoBatch] 3
        (some ⟨some [1], some [1], some [1], some 2⟩) [])
      = some (List.range' (2 + 1) (3 - 2))
  ∧ List.range' 1 2 ++ List.range' (2 + 1) (3 - 2) = List.range' 1 3
  ∧ demoV.load_checkpoint ⟨some [1], some [1], some [1], some 2⟩ [0] [0]
      = Except.ok ((demoV.M.loadDecoderState
          (demoV.M.loadEncoderState [0] [1]) [1],
          demoV.optLoadState [0] [1]), 2) :=
  C1_resume_epochs demoV [] [demoBatch] [demoBatch] 3 2 [1] [1] [1] [0] [0]
    (by simp) (by simp) (by omega)

/-- C10: with an empty training (or validation) batch source, the
epoch-average computation reads the never-bound loop variable `batch_idx`
and the run aborts with an uncaught `NameError`-kind error; when both
sources yield at least one batch, no such error occurs. -/
theorem C10_empty_loader_name_error (V : VAEController) (cbs : List Callback)
    (tl vl : List Batch) (E : Nat) (hE : 1 ≤ E) :
    (tl = [] → runErr (V.train tl vl E none cbs)
        = some (RunError.nameError "batch_idx"))
  ∧ (tl ≠ [] → vl = [] → runErr (V.train tl vl E none cbs)
        = some (RunError.nameError "batch_idx"))
  ∧ (tl ≠ [] → vl ≠ [] → runErr (V.train tl vl E none cbs) = none) := by
  obtain ⟨k, rfl⟩ : ∃ k, E = k + 1 := ⟨E - 1, by omega⟩
  have heq : ∀ cp, V.train tl vl (k + 1) cp cbs
      = match cp with
        | none => V.trainFromEpoch cbs tl vl (k + 1) 1
            ⟨V.params0, V.opt0, ⟨V.enable_amp, V.scfg.init_scale, 0⟩,
              V.initLogs cbs⟩
        | some cp' => V.train tl vl (k + 1) (some cp') cbs := by
    intro cp
    cases cp <;> rfl
  have hlist : List.range' 1 (k + 1 + 1 - 1) = 1 :: List.range' 2 k := by
    rw [show k + 1 + 1 - 1 = k + 1 from rfl, List.range'_succ]
  refine ⟨?_, ?_, ?_⟩
  · intro h0
    subst h0
    rw [heq none, runErr_trainFromEpoch, hlist]
    exact runEpochs_train_nil V cbs vl 1 (List.range' 2 k) _
  · intro htl0 hvl0
    subst hvl0
    have htl' : tl.isEmpty = false := by simpa [List.isEmpty_iff] using htl0
    rw [heq none, runErr_trainFromEpoch, hlist]
    exact runEpochs_valid_nil V cbs tl htl' 1 (List.range' 2 k) _
  · intro htl0 hvl0
    have htl' : tl.isEmpty = false := by simpa [List.isEmpty_iff] using htl0
    have hvl' : vl.isEmpty = false := by simpa [List.isEmpty_iff] using hvl0
    have h1 := trainFromEpoch_spec V cbs tl vl htl' hvl' (k + 1) 1
      ⟨V.params0, V.opt0, ⟨V.enable_amp, V.scfg.init_scale, 0⟩,
        V.initLogs cbs⟩
    rw [heq none]
    exact runErr_eq_none_of_isOk _ h1.1

/-- Witness for C10 at concrete loaders. -/
theorem C10_empty_loader_name_error_witness :
    runErr (demoV.train [] [demoBatch] 2 none [])
      = some (RunError.nameError "batch_idx")
  ∧ runErr (demoV.train [demoBatch] [] 2 none [])
      = some (RunError.nameError "batch_idx")
  ∧ runErr (demoV.train [demoBatch] [demoBatch] 2 none []) = none := by
  have h := C10_empty_loader_name_error demoV [] ([] : List Batch)
    [demoBatch] 2 (by omega)
  have h2 := C10_empty_loader_name_error demoV [] [demoBatch]
    ([] : List Batch) 2 (by omega)
  have h3 := C10_empty_loader_name_error demoV [] [demoBatch]
    [demoBatch] 2 (by omega)
  exact ⟨h.1 rfl, h2.2.1 (by simp) rfl, h3.2.2 (by simp) (by simp)⟩

/-- C6: loading a checkpoint missing any of the four required fields fails
with a `KeyError`-kind error that propagates out of `train` before
`on_train_begin` fires and before any epoch runs: the emitted trace is
empty. -/
theorem C6_corrupt_checkpoint (V : VAEController) (cbs : List Callback)
    (tl vl : List Batch) (E : Nat) (cp : Checkpoint)
    (h : cp.encoder_state_dict = none ∨ cp.decoder_state_dict = none
       ∨ cp.optimizer_state_dict = none ∨ cp.epoch = none) :
    (∃ k, runErr (V.train tl vl E (some cp) cbs)
        = some (RunError.keyError k))
  ∧ runTrace (V.train tl vl E (some cp) cbs) = [] := by
  obtain ⟨o1, o2, o3, o4⟩ := cp
  cases o1 <;> cases o2 <;> cases o3 <;> cases o4 <;>
    simp_all [VAEController.train, VAEController.load_checkpoint, runErr,
      runTrace]

/-- Witness for C6: a concrete checkpoint missing `decoder_state_dict`. -/
theorem C6_corrupt_checkpoint_witness :
    (∃ k, runErr (demoV.train [demoBatch] [demoBatch] 2
        (some ⟨some [1], none, some [1], some 1⟩) [])
        = some (RunError.keyError k))
  ∧ runTrace (demoV.train [demoBatch] [demoBatch] 2
        (some ⟨some [1], none, some [1], some 1⟩) []) = [] :=
  C6_corrupt_checkpoint demoV [] [demoBatch] [demoBatch] 2
    ⟨some [1], none, some [1], some 1⟩ (Or.inr (Or.inl rfl))

theorem flatten_gs_blocks (B : Nat) : ∀ E : Nat,
    ((List.range' 1 E).map (fun e => (List.range B).map
        (fun j => (((e - 1) * B + j : Nat) : ℚ)))).flatten
      = (List.range (E * B)).map (fun j => ((j : Nat) : ℚ))
  | 0 => by simp
  | E + 1 => by
      have hcat : List.range' 1 (E + 1) = List.range' 1 E ++ [1 + 1 * E] :=
        List.range'_concat 1 E
      rw [hcat, List.map_append, List.flatten_append,
        flatten_gs_blocks B E, show (E + 1) * B = E * B + B by ring,
        List.range_add, List.map_append, List.map_map]
      congr 1
      simp [show 1 + 1 * E - 1 = E by omega]

/-- C7: over an `E`-epoch run with at least one callback attached, the
values the controller writes to `logs["global_step"]` are exactly
`(epoch-1)*num_batches + batch_idx` in order, i.e. `0 .. E*num_batches - 1`;
in particular a 2-epoch run over a 10-batch training source writes exactly
`0..19`. -/
theorem C7_global_step_values (V : VAEController) (cbs : List Callback)
    (tl vl : List Batch) (E : Nat)
    (hcb : cbs ≠ []) (htl : tl ≠ []) (hvl : vl ≠ []) :
    (runOkPart (V.train tl vl E none cbs)).map
        (fun r => keyWrites "global_step" r.2)
      = some ((List.range (E * tl.length)).map (fun j => ((j : Nat) : ℚ))) := by
  have htl' : tl.isEmpty = false := by simpa [List.isEmpty_iff] using htl
  have hvl' : vl.isEmpty = false := by simpa [List.isEmpty_iff] using hvl
  have hcb' : cbs.isEmpty = false := by simpa [List.isEmpty_iff] using hcb
  have h1 := trainFromEpoch_spec V cbs tl vl htl' hvl' E 1
    ⟨V.params0, V.opt0, ⟨V.enable_amp, V.scfg.init_scale, 0⟩,
      V.initLogs cbs⟩
  have heq : V.train tl vl E none cbs
      = V.trainFromEpoch cbs tl vl E 1
          ⟨V.params0, V.opt0, ⟨V.enable_amp, V.scfg.init_scale, 0⟩,
            V.initLogs cbs⟩ := rfl
  rw [heq]
  cases hR : V.trainFromEpoch cbs tl vl E 1
      ⟨V.params0, V.opt0, ⟨V.enable_amp, V.scfg.init_scale, 0⟩,
        V.initLogs cbs⟩ with
  | error e3 =>
      rw [hR] at h1
      simp [exIsOk] at h1
  | ok str =>
      obtain ⟨stf, trf⟩ := str
      rw [hR] at h1
      simp only [runTrace] at h1
      have hgs := h1.2.2.1
      rw [hcb'] at hgs
      simp only [Bool.false_eq_true, if_false] at hgs
      show some (keyWrites "global_step" trf) = _
      rw [hgs, show E + 1 - 1 = E by omega, flatten_gs_blocks tl.length E]

/-- Witness for C7: 2 epochs over a 10-batch training source and a 4-batch
validation source, with one callback attached. -/
theorem C7_global_step_values_witness :
    (runOkPart (demoV.train (List.replicate 10 demoBatch)
        (List.replicate 4 demoBatch) 2 none [demoCb])).map
        (fun r => keyWrites "global_step" r.2)
      = some ((List.range (2 * (List.replicate 10 demoBatch).length)).map
          (fun j => ((j : Nat) : ℚ))) :=
  C7_global_step_values demoV [demoCb] (List.replicate 10 demoBatch)
    (List.replicate 4 demoBatch) 2 (by simp) (by simp) (by simp)

/-- C8: after each training pass the controller writes
`train_loss_average = (sum of the per-batch train_loss values) / num_batches`
and after each validation pass it writes `valid_loss` equal to the average
per-batch validation loss; over an `E`-epoch run with a callback attached,
exactly `E` `train_loss_average` writes and `E` `valid_loss` writes occur
(so `E = 2` gives 2 and 2). -/
theorem C8_loss_averages (V : VAEController) (cbs : List Callback)
    (tl vl : List Batch) (E e : Nat) (st : TrainState)
    (hcb : cbs ≠ []) (htl : tl ≠ []) (hvl : vl ≠ []) :
    (runOkPart (V.train tl vl E none cbs)).map
        (fun r => ((keyWrites "train_loss_average" r.2).length,
                   (keyWrites "valid_loss" r.2).length))
      = some (E, E)
  ∧ keyWrites "train_loss_average" (runTrace (V.trainPass cbs tl e st))
      = [(keyWrites "train_loss" (runTrace (V.trainPass cbs tl e st))).sum
          / (tl.length : ℚ)]
  ∧ keyWrites "valid_loss" (runTrace (V.validatePass cbs vl e st))
      = [(V.validLossList st.params vl).sum / (vl.length : ℚ)] := by
  have htl' : tl.isEmpty = false := by simpa [List.isEmpty_iff] using htl
  have hvl' : vl.isEmpty = false := by simpa [List.isEmpty_iff] using hvl
  have hcb' : cbs.isEmpty = false := by simpa [List.isEmpty_iff] using hcb
  refine ⟨?_, ?_, ?_⟩
  · have h1 := trainFromEpoch_spec V cbs tl vl htl' hvl' E 1
      ⟨V.params0, V.opt0, ⟨V.enable_amp, V.scfg.init_scale, 0⟩,
        V.initLogs cbs⟩
    have heq : V.train tl vl E none cbs
        = V.trainFromEpoch cbs tl vl E 1
            ⟨V.params0, V.opt0, ⟨V.enable_amp, V.scfg.init_scale, 0⟩,
              V.initLogs cbs⟩ := rfl
    rw [heq]
    cases hR : V.trainFromEpoch cbs tl vl E 1
        ⟨V.params0, V.opt0, ⟨V.enable_amp, V.scfg.init_scale, 0⟩,
          V.initLogs cbs⟩ with
    | error e3 =>
        rw [hR] at h1
        simp [exIsOk] at h1
    | ok str =>
        obtain ⟨stf, trf⟩ := str
        rw [hR] at h1
        simp only [runTrace] at h1
        have ha := h1.2.2.2.1
        have hb := h1.2.2.2.2.1
        rw [hcb'] at ha hb
        simp only [Bool.false_eq_true, if_false] at ha hb
        show some ((keyWrites "train_loss_average" trf).length,
          (keyWrites "valid_loss" trf).length) = _
        rw [ha, hb, show E + 1 - 1 = E by omega]
  · have h2 := (trainPass_trace V cbs tl e st htl').2.2.2.1
    rw [hcb'] at h2
    simpa using h2
  · have h3 := (validatePass_trace V cbs vl e st hvl').2.2.2.2.1
    rw [hcb'] at h3
    simpa using h3

/-- Witness for C8: 2 epochs, 10 training and 4 validation batches, one
callback. -/
theorem C8_loss_averages_witness :
    (runOkPart (demoV.train (List.replicate 10 demoBatch)
        (List.replicate 4 demoBatch) 2 none [demoCb])).map
        (fun r => ((keyWrites "train_loss_average" r.2).length,
                   (keyWrites "valid_loss" r.2).length))
      = some (2, 2)
  ∧ keyWrites "train_loss_average"
        (runTrace (demoV.trainPass [demoCb] (List.replicate 10 demoBatch)
          1 demoSt))
      = [(keyWrites "train_loss"
          (runTrace (demoV.trainPass [demoCb] (List.replicate 10 demoBatch)
            1 demoSt))).sum / ((List.replicate 10 demoBatch).length : ℚ)]
  ∧ keyWrites "valid_loss"
        (runTrace (demoV.validatePass [demoCb] (List.replicate 4 demoBatch)
          1 demoSt))
      = [(demoV.validLossList demoSt.params
          (List.replicate 4 demoBatch)).sum
          / ((List.replicate 4 demoBatch).length : ℚ)] :=
  C8_loss_averages demoV [demoCb] (List.replicate 10 demoBatch)
    (List.replicate 4 demoBatch) 2 1 demoSt (by simp) (by simp) (by simp)

/-! ## Frame lemmas: callbacks only touch `logs` -/

theorem trainBatchStep_num (V : VAEController) (cbs cbs2 : List Callback)
    (e n i : Nat) (b : Batch) (st st2 : TrainState) (r : ℚ)
    (hp : st.params = st2.params) (ho : st.opt = st2.opt)
    (hs : st.scaler = st2.scaler) :
    (V.trainBatchStep cbs e n i b st r).1.params
      = (V.trainBatchStep cbs2 e n i b st2 r).1.params
  ∧ (V.trainBatchStep cbs e n i b st r).1.opt
      = (V.trainBatchStep cbs2 e n i b st2 r).1.opt
  ∧ (V.trainBatchStep cbs e n i b st r).1.scaler
      = (V.trainBatchStep cbs2 e n i b st2 r).1.scaler
  ∧ (V.trainBatchStep cbs e n i b st r).2.1
      = (V.trainBatchStep cbs2 e n i b st2 r).2.1 := by
  simp [VAEController.trainBatchStep, hp, ho, hs]

theorem trainBatches_num (V : VAEController) (cbs cbs2 : List Callback)
    (e n : Nat) :
    ∀ (ebs : List (Nat × Batch)) (st st2 : TrainState) (r : ℚ),
    st.params = st2.params → st.opt = st2.opt → st.scaler = st2.scaler →
    (V.trainBatches cbs e n ebs st r).1.params
      = (V.trainBatches cbs2 e n ebs st2 r).1.params
  ∧ (V.trainBatches cbs e n ebs st r).1.opt
      = (V.trainBatches cbs2 e n ebs st2 r).1.opt
  ∧ (V.trainBatches cbs e n ebs st r).1.scaler
      = (V.trainBatches cbs2 e n ebs st2 r).1.scaler
  ∧ (V.trainBatches cbs e n ebs st r).2.1
      = (V.trainBatches cbs2 e n ebs st2 r).2.1
  | [], st, st2, r, hp, ho, hs => ⟨hp, ho, hs, rfl⟩
  | (i, b) :: rest, st, st2, r, hp, ho, hs => by
      have hst := trainBatchStep_num V cbs cbs2 e n i b st st2 r hp ho hs
      have hrest := trainBatches_num V cbs cbs2 e n rest
        (V.trainBatchStep cbs e n i b st r).1
        (V.trainBatchStep cbs2 e n i b st2 r).1
        (V.trainBatchStep cbs e n i b st r).2.1
        hst.1 hst.2.1 hst.2.2.1
      simp only [VAEController.trainBatches]
      rw [← hst.2.2.2]
      exact hrest

theorem trainPass_ok_num (V : VAEController) (cbs cbs2 : List Callback)
    (tl : List Batch) (e : Nat) (stA stB a b : TrainState)
    (trA trB : Trace)
    (hp : stA.params = stB.params) (ho : stA.opt = stB.opt)
    (hs : stA.scaler = stB.scaler)
    (h1 : V.trainPass cbs tl e stA = Except.ok (a, trA))
    (h2 : V.trainPass cbs2 tl e stB = Except.ok (b, trB)) :
    a.params = b.params ∧ a.opt = b.opt ∧ a.scaler = b.scaler := by
  have hn := trainBatches_num V cbs cbs2 e tl.length tl.enum stA stB 0
    hp ho hs
  cases hemp : tl.isEmpty
  · simp only [VAEController.trainPass, hemp, Bool.false_eq_true,
      if_false, Except.ok.injEq, Prod.mk.injEq] at h1 h2
    rw [← h1.1, ← h2.1]
    exact ⟨hn.1, hn.2.1, hn.2.2.1⟩
  · simp [VAEController.trainPass, hemp] at h1

theorem validBatches_preserves (V : VAEController) (cbs : List Callback)
    (e : Nat) :
    ∀ (ebs : List (Nat × Batch)) (st : TrainState) (acc : ℚ),
    (V.validBatches cbs e ebs st acc).1.params = st.params
  ∧ (V.validBatches cbs e ebs st acc).1.opt = st.opt
  ∧ (V.validBatches cbs e ebs st acc).1.scaler = st.scaler
  | [], st, acc => ⟨rfl, rfl, rfl⟩
  | (i, b) :: rest, st, acc => by
      have hrest := validBatches_preserves V cbs e rest
        (V.validBatchStep cbs e i b st acc).1
        (V.validBatchStep cbs e i b st acc).2.1
      simp only [VAEController.validBatches]
      simpa [VAEController.validBatchStep] using hrest

theorem validatePass_ok_num (V : VAEController) (cbs : List Callback)
    (vl : List Batch) (e : Nat) (st a : TrainState) (tr : Trace)
    (h : V.validatePass cbs vl e st = Except.ok (a, tr)) :
    a.params = st.params ∧ a.opt = st.opt ∧ a.scaler = st.scaler := by
  have hpre := validBatches_preserves V cbs e vl.enum
    ⟨st.params, st.opt, st.scaler,
      fireAll (fun cb => cb.on_validation_begin e) cbs st.logs⟩ 0
  cases hemp : vl.isEmpty
  · simp only [VAEController.validatePass, hemp, Bool.false_eq_true,
      if_false, Except.ok.injEq, Prod.mk.injEq] at h
    rw [← h.1]
    exact ⟨hpre.1, hpre.2.1, hpre.2.2⟩
  · simp [VAEController.validatePass, hemp] at h

theorem runEpochs_num (V : VAEController) (cbs cbs2 : List Callback)
    (tl vl : List Batch) (htl : tl.isEmpty = false)
    (hvl : vl.isEmpty = false) :
    ∀ (es : List Nat) (stA stB : TrainState),
    stA.params = stB.params → stA.opt = stB.opt → stA.scaler = stB.scaler →
    runNumState (V.runEpochs cbs tl vl es stA)
      = runNumState (V.runEpochs cbs2 tl vl es stB)
  | [], stA, stB, hp, ho, hs => by
      simp [VAEController.runEpochs, runNumState, hp, ho, hs]
  | e :: rest, stA, stB, hp, ho, hs => by
      have htl' : tl ≠ [] := fun hh => by simp [hh] at htl
      have hvl' : vl ≠ [] := fun hh => by simp [hh] at hvl
      have hTPokA := trainPass_isOk_of_ne_nil V cbs tl e
        ⟨stA.params, stA.opt, stA.scaler,
          fireAll (fun cb => cb.on_epoch_begin e) cbs stA.logs⟩ htl'
      have hTPokB := trainPass_isOk_of_ne_nil V cbs2 tl e
        ⟨stB.params, stB.opt, stB.scaler,
          fireAll (fun cb => cb.on_epoch_begin e) cbs2 stB.logs⟩ htl'
      cases hTPA : V.trainPass cbs tl e
          ⟨stA.params, stA.opt, stA.scaler,
            fireAll (fun cb => cb.on_epoch_begin e) cbs stA.logs⟩ with
      | error err =>
          rw [hTPA] at hTPokA
          simp [exIsOk] at hTPokA
      | ok aA =>
      obtain ⟨a2, trA⟩ := aA
      cases hTPB : V.trainPass cbs2 tl e
          ⟨stB.params, stB.opt, stB.scaler,
            fireAll (fun cb => cb.on_epoch_begin e) cbs2 stB.logs⟩ with
      | error err =>
          rw [hTPB] at hTPokB
          simp [exIsOk] at hTPokB
      | ok aB =>
      obtain ⟨b2, trB⟩ := aB
      have hTn := trainPass_ok_num V cbs cbs2 tl e
        ⟨stA.params, stA.opt, stA.scaler,
          fireAll (fun cb => cb.on_epoch_begin e) cbs stA.logs⟩
        ⟨stB.params, stB.opt, stB.scaler,
          fireAll (fun cb => cb.on_epoch_begin e) cbs2 stB.logs⟩
        a2 b2 trA trB hp ho hs hTPA hTPB
      have hVPokA := validatePass_isOk_of_ne_nil V cbs vl e a2 hvl'
      have hVPokB := validatePass_isOk_of_ne_nil V cbs2 vl e b2 hvl'
      cases hVPA : V.validatePass cbs vl e a2 with
      | error err =>
          rw [hVPA] at hVPokA
          simp [exIsOk] at hVPokA
      | ok cA =>
      obtain ⟨a3, trVA⟩ := cA
      cases hVPB : V.validatePass cbs2 vl e b2 with
      | error err =>
          rw [hVPB] at hVPokB
          simp [exIsOk] at hVPokB
      | ok cB =>
      obtain ⟨b3, trVB⟩ := cB
      have hVnA := validatePass_ok_num V cbs vl e a2 a3 trVA hVPA
      have hVnB := validatePass_ok_num V cbs2 vl e b2 b3 trVB hVPB
      have hIH := runEpochs_num V cbs cbs2 tl vl htl hvl rest
        ⟨a3.params, a3.opt, a3.scaler,
          fireAll (fun cb => cb.on_epoch_end e) cbs a3.logs⟩
        ⟨b3.params, b3.opt, b3.scaler,
          fireAll (fun cb => cb.on_epoch_end e) cbs2 b3.logs⟩
        (by rw [hVnA.1, hVnB.1, hTn.1])
        (by rw [hVnA.2.1, hVnB.2.1, hTn.2.1])
        (by rw [hVnA.2.2, hVnB.2.2, hTn.2.2])
      cases hRA : V.runEpochs cbs tl vl rest
          ⟨a3.params, a3.opt, a3.scaler,
            fireAll (fun cb => cb.on_epoch_end e) cbs a3.logs⟩ with
      | error eA =>
          obtain ⟨errA, stEA, trDA⟩ := eA
          cases hRB : V.runEpochs cbs2 tl vl rest
              ⟨b3.params, b3.opt, b3.scaler,
                fireAll (fun cb => cb.on_epoch_end e) cbs2 b3.logs⟩ with
          | error eB =>
              obtain ⟨errB, stEB, trDB⟩ := eB
              simp only [VAEController.runEpochs, hTPA, hTPB, hVPA, hVPB,
                hRA, hRB, runNumState]
          | ok okB =>
              obtain ⟨st5B, trRB⟩ := okB
              rw [hRA, hRB] at hIH
              simp [runNumState] at hIH
      | ok okA =>
          obtain ⟨st5A, trRA⟩ := okA
          cases hRB : V.runEpochs cbs2 tl vl rest
              ⟨b3.params, b3.opt, b3.scaler,
                fireAll (fun cb => cb.on_epoch_end e) cbs2 b3.logs⟩ with
          | error eB =>
              obtain ⟨errB, stEB, trDB⟩ := eB
              rw [hRA, hRB] at hIH
              simp [runNumState] at hIH
          | ok okB =>
              obtain ⟨st5B, trRB⟩ := okB
              rw [hRA, hRB] at hIH
              simp only [runNumState] at hIH
              simp only [VAEController.runEpochs, hTPA, hTPB, hVPA, hVPB,
                hRA, hRB, runNumState]
              exact hIH

theorem trainBatches_nocb_logs (V : VAEController) (e n : Nat) :
    ∀ (ebs : List (Nat × Batch)) (st : TrainState) (r : ℚ),
    (V.trainBatches [] e n ebs st r).1.logs = st.logs
  | [], st, r => rfl
  | (i, b) :: rest, st, r => by
      have hrest := trainBatches_nocb_logs V e n rest
        (V.trainBatchStep [] e n i b st r).1
        (V.trainBatchStep [] e n i b st r).2.1
      simp only [VAEController.trainBatches]
      rw [hrest]
      simp [VAEController.trainBatchStep, fireAll]

theorem trainPass_nocb_logs (V : VAEController) (tl : List Batch) (e : Nat)
    (st a : TrainState) (tr : Trace)
    (h : V.trainPass [] tl e st = Except.ok (a, tr)) : a.logs = st.logs := by
  cases hemp : tl.isEmpty
  · simp only [VAEController.trainPass, hemp, Bool.false_eq_true, if_false,
      List.isEmpty_nil, if_true, Except.ok.injEq, Prod.mk.injEq] at h
    rw [← h.1]
    exact trainBatches_nocb_logs V e tl.length tl.enum st 0
  · simp [VAEController.trainPass, hemp] at h

theorem validBatches_nocb_logs (V : VAEController) (e : Nat) :
    ∀ (ebs : List (Nat × Batch)) (st : TrainState) (acc : ℚ),
    (V.validBatches [] e ebs st acc).1.logs = st.logs
  | [], st, acc => rfl
  | (i, b) :: rest, st, acc => by
      have hrest := validBatches_nocb_logs V e rest
        (V.validBatchStep [] e i b st acc).1
        (V.validBatchStep [] e i b st acc).2.1
      simp only [VAEController.validBatches]
      rw [hrest]
      simp [VAEController.validBatchStep, fireAll]

theorem validatePass_nocb_logs (V : VAEController) (vl : List Batch)
    (e : Nat) (st a : TrainState) (tr : Trace)
    (h : V.validatePass [] vl e st = Except.ok (a, tr)) :
    a.logs = st.logs := by
  cases hemp : vl.isEmpty
  · simp only [VAEController.validatePass, hemp, Bool.false_eq_true,
      if_false, List.isEmpty_nil, if_true, Except.ok.injEq,
      Prod.mk.injEq] at h
    rw [← h.1]
    have := validBatches_nocb_logs V e vl.enum
      ⟨st.params, st.opt, st.scaler,
        fireAll (fun cb => cb.on_validation_begin e) [] st.logs⟩ 0
    rw [this]
    rfl
  · simp [VAEController.validatePass, hemp] at h

theorem runEpochs_nocb_logs (V : VAEController) (tl vl : List Batch) :
    ∀ (es : List Nat) (st a : TrainState) (tr : Trace),
    V.runEpochs [] tl vl es st = Except.ok (a, tr) → a.logs = st.logs
  | [], st, a, tr, h => by
      simp only [VAEController.runEpochs, Except.ok.injEq,
        Prod.mk.injEq] at h
      rw [← h.1]
  | e :: rest, st, a, tr, h => by
      cases hTP : V.trainPass [] tl e
          ⟨st.params, st.opt, st.scaler,
            fireAll (fun cb => cb.on_epoch_begin e) [] st.logs⟩ with
      | error err =>
          obtain ⟨e1, e2, e3⟩ := err
          simp [VAEController.runEpochs, hTP] at h
      | ok p =>
      obtain ⟨st2, trT⟩ := p
      cases hVP : V.validatePass [] vl e st2 with
      | error err =>
          obtain ⟨e1, e2, e3⟩ := err
          simp [VAEController.runEpochs, hTP, hVP] at h
      | ok q =>
      obtain ⟨st3, trV⟩ := q
      cases hR : V.runEpochs [] tl vl rest
          ⟨st3.params, st3.opt, st3.scaler,
            fireAll (fun cb => cb.on_epoch_end e) [] st3.logs⟩ with
      | error err =>
          obtain ⟨e1, e2, e3⟩ := err
          simp [VAEController.runEpochs, hTP, hVP, hR] at h
      | ok r2 =>
      obtain ⟨st5, trR⟩ := r2
      have h5 := runEpochs_nocb_logs V tl vl rest _ st5 trR hR
      simp only [VAEController.runEpochs, hTP, hVP, hR, Except.ok.injEq,
        Prod.mk.injEq] at h
      rw [← h.1, h5]
      show st3.logs = st.logs
      rw [validatePass_nocb_logs V vl e st2 st3 trV hVP,
        trainPass_nocb_logs V tl e _ st2 trT hTP]
      rfl

theorem trainFromEpoch_nocb_logs (V : VAEController)
    (tl vl : List Batch) (epochs s : Nat) (st0 a : TrainState) (tr : Trace)
    (h : V.trainFromEpoch [] tl vl epochs s st0 = Except.ok (a, tr)) :
    a.logs = st0.logs := by
  cases hRE : V.runEpochs [] tl vl (List.range' s (epochs + 1 - s))
      ⟨st0.params, st0.opt, st0.scaler,
        fireAll (fun cb => cb.on_train_begin) [] st0.logs⟩ with
  | error e3 =>
      obtain ⟨err, stE, trD⟩ := e3
      simp [VAEController.trainFromEpoch, hRE] at h
  | ok p =>
      obtain ⟨st2, trR⟩ := p
      have h2 := runEpochs_nocb_logs V tl vl
        (List.range' s (epochs + 1 - s)) _ st2 trR hRE
      simp only [VAEController.trainFromEpoch, hRE, Except.ok.injEq,
        Prod.mk.injEq] at h
      rw [← h.1]
      show st2.logs = st0.logs
      rw [h2]
      rfl

/-- C9: with an empty callbacks list the shared `logs` stays the empty
mapping for the whole run (no model/optimizer/comm_size entries, no metric
writes), while the model parameters, optimizer state and scaler state
evolve exactly as they do with any callbacks attached. -/
theorem C9_empty_callbacks_frame (V : VAEController) (cbs : List Callback)
    (tl vl : List Batch) (E : Nat) (htl : tl ≠ []) (hvl : vl ≠ []) :
    (runOkPart (V.train tl vl E none [])).map (fun r => r.1.logs) = some []
  ∧ (runOkPart (V.train tl vl E none [])).map (fun r => logWritesOf r.2)
      = some []
  ∧ runNumState (V.train tl vl E none [])
      = runNumState (V.train tl vl E none cbs) := by
  have htl' : tl.isEmpty = false := by simpa [List.isEmpty_iff] using htl
  have hvl' : vl.isEmpty = false := by simpa [List.isEmpty_iff] using hvl
  have h1 := trainFromEpoch_spec V [] tl vl htl' hvl' E 1
    ⟨V.params0, V.opt0, ⟨V.enable_amp, V.scfg.init_scale, 0⟩,
      V.initLogs []⟩
  have heqNil : V.train tl vl E none []
      = V.trainFromEpoch [] tl vl E 1
          ⟨V.params0, V.opt0, ⟨V.enable_amp, V.scfg.init_scale, 0⟩,
            V.initLogs []⟩ := rfl
  refine ⟨?_, ?_, ?_⟩
  · rw [heqNil]
    cases hTF : V.trainFromEpoch [] tl vl E 1
        ⟨V.params0, V.opt0, ⟨V.enable_amp, V.scfg.init_scale, 0⟩,
          V.initLogs []⟩ with
    | error e3 =>
        rw [hTF] at h1
        simp [exIsOk] at h1
    | ok p =>
        obtain ⟨stf, trf⟩ := p
        have hlogs := trainFromEpoch_nocb_logs V tl vl E 1 _ stf trf hTF
        simp only [runOkPart, Option.map_some]
        show some stf.logs = some []
        rw [hlogs]
        rfl
  · rw [heqNil]
    cases hRE : V.trainFromEpoch [] tl vl E 1
        ⟨V.params0, V.opt0, ⟨V.enable_amp, V.scfg.init_scale, 0⟩,
          V.initLogs []⟩ with
    | error e3 =>
        rw [hRE] at h1
        simp [exIsOk] at h1
    | ok p =>
        obtain ⟨st2, trR⟩ := p
        rw [hRE] at h1
        simp only [runTrace] at h1
        have hw := h1.2.2.2.2.2 rfl
        simp only [runOkPart, Option.map_some]
        show some (logWritesOf trR) = _
        rw [hw]
  · have heqCbs : V.train tl vl E none cbs
        = V.trainFromEpoch cbs tl vl E 1
            ⟨V.params0, V.opt0, ⟨V.enable_amp, V.scfg.init_scale, 0⟩,
              V.initLogs cbs⟩ := rfl
    have hnum := runEpochs_num V [] cbs tl vl htl' hvl'
      (List.range' 1 (E + 1 - 1))
      ⟨V.params0, V.opt0, ⟨V.enable_amp, V.scfg.init_scale, 0⟩,
        fireAll (fun cb => cb.on_train_begin) [] (V.initLogs [])⟩
      ⟨V.params0, V.opt0, ⟨V.enable_amp, V.scfg.init_scale, 0⟩,
        fireAll (fun cb => cb.on_train_begin) cbs (V.initLogs cbs)⟩
      rfl rfl rfl
    rw [heqNil, heqCbs]
    cases hRA : V.runEpochs [] tl vl (List.range' 1 (E + 1 - 1))
        ⟨V.params0, V.opt0, ⟨V.enable_amp, V.scfg.init_scale, 0⟩,
          fireAll (fun cb => cb.on_train_begin) [] (V.initLogs [])⟩ with
    | error eA =>
        obtain ⟨errA, stEA, trDA⟩ := eA
        cases hRB : V.runEpochs cbs tl vl (List.range' 1 (E + 1 - 1))
            ⟨V.params0, V.opt0, ⟨V.enable_amp, V.scfg.init_scale, 0⟩,
              fireAll (fun cb => cb.on_train_begin) cbs
                (V.initLogs cbs)⟩ with
        | error eB =>
            obtain ⟨errB, stEB, trDB⟩ := eB
            simp only [VAEController.trainFromEpoch, hRA, hRB, runNumState]
        | ok pB =>
            obtain ⟨stB, trB⟩ := pB
            rw [hRA, hRB] at hnum
            simp [runNumState] at hnum
    | ok pA =>
        obtain ⟨stA, trA⟩ := pA
        cases hRB : V.runEpochs cbs tl vl (List.range' 1 (E + 1 - 1))
            ⟨V.params0, V.opt0, ⟨V.enable_amp, V.scfg.init_scale, 0⟩,
              fireAll (fun cb => cb.on_train_begin) cbs
                (V.initLogs cbs)⟩ with
        | error eB =>
            obtain ⟨errB, stEB, trDB⟩ := eB
            rw [hRA, hRB] at hnum
            simp [runNumState] at hnum
        | ok pB =>
            obtain ⟨stB, trB⟩ := pB
            rw [hRA, hRB] at hnum
            simp only [runNumState] at hnum
            simp only [VAEController.trainFromEpoch, hRA, hRB, runNumState]
            exact hnum

/-- Witness for C9 at a concrete controller and loaders. -/
theorem C9_empty_callbacks_frame_witness :
    (runOkPart (demoV.train [demoBatch] [demoBatch] 2 none [])).map
        (fun r => r.1.logs) = some []
  ∧ (runOkPart (demoV.train [demoBatch] [demoBatch] 2 none [])).map
        (fun r => logWritesOf r.2) = some []
  ∧ runNumState (demoV.train [demoBatch] [demoBatch] 2 none [])
      = runNumState (demoV.train [demoBatch] [demoBatch] 2 none [demoCb]) :=
  C9_empty_callbacks_frame demoV [demoCb] [demoBatch] [demoBatch] 2
    (by simp) (by simp)
